import Mathlib

/-!
Verification of the PostgreSQL-to-Neo4j migration service
(`app/etl.py`, `app/main.py`, `app/utils.py`).

The development shallowly embeds the three source files:

* graph-store values (`GVal`) cover the value kinds the migration writes:
  integers, strings, floating-point numbers (modelled as rationals),
  Cypher calendar dates and Cypher datetimes;
* every Cypher statement the source issues is embedded as a `GOp`
  operation whose semantics (`opSem`) follows Neo4j semantics for that
  statement shape: a `MATCH` producing zero rows makes the following
  `CREATE` clauses run zero times, without error;
* Python date/datetime serialisation (`str(date)`, `datetime.isoformat`,
  `str(datetime)`) and the Cypher `date()` / `datetime()` parsers are
  embedded at the character level, so the round trip is proved, not
  assumed;
* store failures are injected through an `inj` parameter: `inj op` is
  the error the store raises on that statement, or `none` if the
  statement succeeds.

Timestamps are modelled to second precision without time zones, which is
the shape the repository's data uses; Python `str` on such a datetime
yields `YYYY-MM-DD HH:MM:SS` and `isoformat` yields
`YYYY-MM-DDTHH:MM:SS`.  Neo4j `datetime()` is modelled as accepting both
separators, the generous reading.  The `queries.cypher` schema script is
not part of the repository; following the spec, which calls its contents
"constraints/indexes", its statements are modelled as leaving graph
content unchanged.
-/

/-- Calendar date (`datetime.date` in the source data). -/
structure DateV where
  year : Nat
  month : Nat
  day : Nat
deriving DecidableEq, Repr

/-- Timestamp to second precision (`datetime.datetime` in the source data). -/
structure DTV where
  date : DateV
  hh : Nat
  mi : Nat
  ss : Nat
deriving DecidableEq, Repr

/-- Values stored in graph node/relationship properties and passed as Cypher
parameters.  Python floats are modelled as rationals (`float`). -/
inductive GVal where
  | int (n : Int)
  | str (s : String)
  | float (q : Rat)
  | date (d : DateV)
  | datetime (t : DTV)
deriving DecidableEq, Repr

/-- Two-digit zero-padded decimal rendering, as Python renders month, day,
hour, minute and second fields. -/
def pad2 (n : Nat) : List Char :=
  [Nat.digitChar (n / 10), Nat.digitChar (n % 10)]

/-- Four-digit zero-padded decimal rendering, as Python renders the year. -/
def pad4 (n : Nat) : List Char :=
  [Nat.digitChar (n / 1000), Nat.digitChar (n / 100 % 10),
   Nat.digitChar (n / 10 % 10), Nat.digitChar (n % 10)]

/-- Python `str` on a `datetime.date`: the ISO form `YYYY-MM-DD`. -/
def pyStrDate (d : DateV) : String :=
  String.mk (pad4 d.year ++ '-' :: (pad2 d.month ++ '-' :: pad2 d.day))

/-- Python `datetime.isoformat()` to second precision:
`YYYY-MM-DDTHH:MM:SS`. -/
def isoDT (t : DTV) : String :=
  String.mk (pad4 t.date.year ++ '-' :: (pad2 t.date.month ++ '-' ::
    (pad2 t.date.day ++ 'T' :: (pad2 t.hh ++ ':' :: (pad2 t.mi ++ ':' :: pad2 t.ss)))))

/-- Python `str` on a `datetime.datetime` to second precision:
`YYYY-MM-DD HH:MM:SS` (space separator instead of `T`). -/
def pyStrDT (t : DTV) : String :=
  String.mk (pad4 t.date.year ++ '-' :: (pad2 t.date.month ++ '-' ::
    (pad2 t.date.day ++ ' ' :: (pad2 t.hh ++ ':' :: (pad2 t.mi ++ ':' :: pad2 t.ss)))))

/-- Numeric value of a decimal digit character. -/
def charDigit (c : Char) : Nat := c.toNat - 48

/-- Cypher `date()` string argument parser: accepts `YYYY-MM-DD`. -/
def parseCypherDate (s : String) : Option DateV :=
  match s.data with
  | [y1, y2, y3, y4, h1, m1, m2, h2, d1, d2] =>
    if y1.isDigit && y2.isDigit && y3.isDigit && y4.isDigit &&
       decide (h1 = '-') && decide (h2 = '-') &&
       m1.isDigit && m2.isDigit && d1.isDigit && d2.isDigit then
      some ⟨charDigit y1 * 1000 + charDigit y2 * 100 + charDigit y3 * 10 + charDigit y4,
            charDigit m1 * 10 + charDigit m2,
            charDigit d1 * 10 + charDigit d2⟩
    else none
  | _ => none

/-- Cypher `datetime()` string argument parser: accepts
`YYYY-MM-DD HH:MM:SS` with separator `T` or a space. -/
def parseCypherDT (s : String) : Option DTV :=
  match s.data with
  | [y1, y2, y3, y4, h1, m1, m2, h2, d1, d2, sep, a1, a2, c1, b1, b2, c2, e1, e2] =>
    if y1.isDigit && y2.isDigit && y3.isDigit && y4.isDigit &&
       decide (h1 = '-') && decide (h2 = '-') &&
       m1.isDigit && m2.isDigit && d1.isDigit && d2.isDigit &&
       (decide (sep = 'T') || decide (sep = ' ')) &&
       a1.isDigit && a2.isDigit && decide (c1 = ':') &&
       b1.isDigit && b2.isDigit && decide (c2 = ':') &&
       e1.isDigit && e2.isDigit then
      some ⟨⟨charDigit y1 * 1000 + charDigit y2 * 100 + charDigit y3 * 10 + charDigit y4,
             charDigit m1 * 10 + charDigit m2,
             charDigit d1 * 10 + charDigit d2⟩,
            charDigit a1 * 10 + charDigit a2,
            charDigit b1 * 10 + charDigit b2,
            charDigit e1 * 10 + charDigit e2⟩
    else none
  | _ => none

/-- Cypher `date($p)` applied to a parameter value: parses a string,
fails on anything unparsable (as Neo4j raises). -/
def cypherDateFn (v : GVal) : Except String GVal :=
  match v with
  | .str s =>
    match parseCypherDate s with
    | some d => .ok (.date d)
    | none => .error ("Invalid date string: " ++ s)
  | _ => .error "date() expects a string parameter here"

/-- Cypher `datetime($p)` applied to a parameter value. -/
def cypherDTFn (v : GVal) : Except String GVal :=
  match v with
  | .str s =>
    match parseCypherDT s with
    | some t => .ok (.datetime t)
    | none => .error ("Invalid datetime string: " ++ s)
  | _ => .error "datetime() expects a string parameter here"

/-- A graph node: internal id, label, the `id` property every created node
carries (the relational primary key), and the remaining properties. -/
structure GNode where
  nid : Nat
  label : String
  idv : GVal
  props : List (String × GVal)
deriving DecidableEq, Repr

/-- A typed, directed relationship between two nodes (by internal id). -/
structure GRel where
  src : Nat
  rtype : String
  props : List (String × GVal)
  dst : Nat
deriving DecidableEq, Repr

/-- The graph store state.  `nextId` feeds fresh internal node ids. -/
structure Graph where
  nodes : List GNode
  rels : List GRel
  nextId : Nat
deriving DecidableEq, Repr

/-- Does a node satisfy `MATCH (n:label {id: idv})`? -/
def nodeMatches (label : String) (idv : GVal) (n : GNode) : Bool :=
  decide (n.label = label) && decide (n.idv = idv)

/-- All nodes matching `MATCH (n:label {id: idv})`, in creation order. -/
def matchNodes (g : Graph) (label : String) (idv : GVal) : List GNode :=
  g.nodes.filter (nodeMatches label idv)

/-- Append one freshly-numbered node. -/
def addNodeG (g : Graph) (label : String) (idv : GVal)
    (props : List (String × GVal)) : Graph :=
  { nodes := g.nodes ++ [⟨g.nextId, label, idv, props⟩]
    rels := g.rels
    nextId := g.nextId + 1 }

/-- Append relationships. -/
def addRels (g : Graph) (rs : List GRel) : Graph :=
  { g with rels := g.rels ++ rs }

/-- The parameterized Cypher statements the source issues, with the
parameter values exactly as the Python call sites pass them. -/
inductive GOp where
  | wipe
  | createCategory (idv name : GVal)
  | createProduct (idv name price category_id : GVal)
  | createCustomer (idv name join_date : GVal)
  | createOrder (idv customer_id ts : GVal)
  | createOrderItem (order_id product_id quantity : GVal)
  | createEvent (customer_id product_id event_type ts : GVal)
deriving DecidableEq, Repr

/-- Per matched `Category` row, `CREATE` one `Product` node and one
`IN_CATEGORY` relationship (the `CREATE` clauses run once per `MATCH`
row; zero rows mean zero creations and no error). -/
def createProductLoop (idv name price : GVal) :
    List GNode → Graph → Graph
  | [], g => g
  | c :: rest, g =>
    let g2 := addNodeG g "Product" idv [("name", name), ("price", price)]
    createProductLoop idv name price rest
      (addRels g2 [⟨g.nextId, "IN_CATEGORY", [], c.nid⟩])

/-- Per matched `Customer` row, `CREATE` one `Order` node (converting the
`ts` parameter with `datetime()`) and a `PLACED` relationship. -/
def createOrderLoop (idv ts : GVal) :
    List GNode → Graph → Except String Graph
  | [], g => .ok g
  | c :: rest, g =>
    match cypherDTFn ts with
    | .error e => .error e
    | .ok tv =>
      let g2 := addNodeG g "Order" idv [("timestamp", tv)]
      createOrderLoop idv ts rest
        (addRels g2 [⟨c.nid, "PLACED", [], g.nextId⟩])

/-- Per (matched `Order`, matched `Product`) pair, `CREATE` one `CONTAINS`
relationship carrying `quantity`. -/
def createItemLoop (qty : GVal) (ps : List GNode) :
    List GNode → Graph → Graph
  | [], g => g
  | o :: rest, g =>
    createItemLoop qty ps rest
      (addRels g (ps.map fun p => ⟨o.nid, "CONTAINS", [("quantity", qty)], p.nid⟩))

/-- Inner loop of the event statement: per matched `Product`, convert the
`ts` parameter with `datetime()` and `CREATE` one `INTERACTED`
relationship from the given `Customer`. -/
def createEventInner (c : GNode) (et ts : GVal) :
    List GNode → Graph → Except String Graph
  | [], g => .ok g
  | p :: rest, g =>
    match cypherDTFn ts with
    | .error e => .error e
    | .ok tv =>
      createEventInner c et ts rest
        (addRels g [⟨c.nid, "INTERACTED", [("event_type", et), ("timestamp", tv)], p.nid⟩])

/-- Outer loop of the event statement, over matched `Customer` rows. -/
def createEventLoop (et ts : GVal) (ps : List GNode) :
    List GNode → Graph → Except String Graph
  | [], g => .ok g
  | c :: rest, g =>
    match createEventInner c et ts ps g with
    | .error e => .error e
    | .ok g2 => createEventLoop et ts ps rest g2

/-- Semantics of each Cypher statement the source issues, in the graph
store.  `MATCH` sets are computed against the state at statement start. -/
def opSem (g : Graph) : GOp → Except String Graph
  | .wipe => .ok ⟨[], [], g.nextId⟩
  | .createCategory idv name =>
    .ok (addNodeG g "Category" idv [("name", name)])
  | .createProduct idv name price category_id =>
    .ok (createProductLoop idv name price (matchNodes g "Category" category_id) g)
  | .createCustomer idv name join_date =>
    match cypherDateFn join_date with
    | .error e => .error e
    | .ok dv => .ok (addNodeG g "Customer" idv [("name", name), ("join_date", dv)])
  | .createOrder idv customer_id ts =>
    createOrderLoop idv ts (matchNodes g "Customer" customer_id) g
  | .createOrderItem order_id product_id quantity =>
    .ok (createItemLoop quantity (matchNodes g "Product" product_id)
          (matchNodes g "Order" order_id) g)
  | .createEvent customer_id product_id event_type ts =>
    createEventLoop event_type ts (matchNodes g "Product" product_id)
      (matchNodes g "Customer" customer_id) g

/-- One statement submitted to the store: an injected failure (`inj op`)
makes the store raise; otherwise `opSem` applies. -/
def runOp (inj : GOp → Option String) (g : Graph) (op : GOp) :
    Except String Graph :=
  match inj op with
  | some e => .error e
  | none => opSem g op

/-- `utils.run_cypher`: runs one statement inside `with driver.session()`,
so exactly one session is opened and it is closed on the success path and
on the raise path alike.  Returns (result, sessions opened, sessions
closed). -/
def run_cypher (inj : GOp → Option String) (g : Graph) (op : GOp) :
    Except String Graph × Nat × Nat :=
  (runOp inj g op, 1, 1)

deriving instance DecidableEq for Except

/-- Outcome of a readiness gate call: probes performed, the sleeps taken
between consecutive failed attempts, and the overall result. -/
structure WaitRes where
  probes : Nat
  sleeps : List Nat
  result : Except String Unit
deriving DecidableEq, Repr

/-- The retry loop shared by `wait_for_postgres` and `wait_for_neo4j`:
`fuel` is the number of remaining attempts, `i` the 0-based index of the
current attempt.  A successful probe returns at once; a failed probe
sleeps `delay` and retries unless it was the last attempt, in which case
the terminal error is raised.  With zero attempts the loop body never
runs and the function returns successfully. -/
def waitLoopAux (probe : Nat → Bool) (delay : Nat) (msg : String) :
    Nat → Nat → WaitRes
  | 0, _ => ⟨0, [], .ok ()⟩
  | 1, i => if probe i then ⟨1, [], .ok ()⟩ else ⟨1, [], .error msg⟩
  | fuel + 2, i =>
    if probe i then ⟨1, [], .ok ()⟩
    else
      let r := waitLoopAux probe delay msg (fuel + 1) (i + 1)
      ⟨r.probes + 1, delay :: r.sleeps, r.result⟩

/-- `utils.wait_for_postgres`: up to `max_retries` connection probes with
`delay` seconds between consecutive failures; exhausting the attempts
raises `Exception(f"PostgreSQL not ready after {max_retries} attempts")`.
`probe i` tells whether the `i`-th `psycopg2.connect` succeeds.  Python
`range(max_retries)` is empty for a non-positive argument, hence
`Int.toNat`. -/
def wait_for_postgres (probe : Nat → Bool) (max_retries : Int) (delay : Nat) :
    WaitRes :=
  waitLoopAux probe delay
    ("PostgreSQL not ready after " ++ toString max_retries ++ " attempts")
    max_retries.toNat 0

/-- `utils.wait_for_neo4j`: same loop shape, probing with a driver session
running `RETURN 1`, raising
`Exception(f"Neo4j not ready after {max_retries} attempts")`. -/
def wait_for_neo4j (probe : Nat → Bool) (max_retries : Int) (delay : Nat) :
    WaitRes :=
  waitLoopAux probe delay
    ("Neo4j not ready after " ++ toString max_retries ++ " attempts")
    max_retries.toNat 0

/-- Python `content.split(';')` over the character list: split at every
semicolon, keeping empty segments. -/
def splitSemiAux : List Char → List Char → List String
  | [], acc => [String.mk acc.reverse]
  | c :: rest, acc =>
    if c = ';' then String.mk acc.reverse :: splitSemiAux rest []
    else splitSemiAux rest (c :: acc)

/-- Python `content.split(';')`. -/
def pySplitSemi (s : String) : List String := splitSemiAux s.data []

/-- ASCII whitespace, as stripped by Python `str.strip()` on this data. -/
def isWs (c : Char) : Bool :=
  decide (c = ' ') || decide (c = '\t') || decide (c = '\n') || decide (c = '\r')

/-- Python `str.strip()`: drop whitespace from both ends. -/
def pyStrip (s : String) : String :=
  String.mk (((s.data.dropWhile isWs).reverse.dropWhile isWs).reverse)

/-- The statement list `run_cypher_file` builds:
`[stmt.strip() for stmt in content.split(';') if stmt.strip()]`. -/
def splitStatements (content : String) : List String :=
  ((pySplitSemi content).map pyStrip).filter (fun s => !s.isEmpty)

/-- Outcome of `utils.run_cypher_file`: the statements submitted to the
session in order (the last one being the failing one if `err` is set),
the printed log, the raised error if any, and the sessions opened (the
whole script runs inside a single `with driver.session()`). -/
structure ScriptRes where
  submitted : List String
  log : List String
  err : Option String
  sessions : Nat
deriving DecidableEq, Repr

/-- The statement loop of `run_cypher_file`: `i` is the 1-based index,
`total` the statement count.  On success it prints
`"  ✓ Executed statement i/total"` and continues; on a store error it
prints `"  ✗ Error in statement i: e"` and re-raises the original
error `e` unchanged. -/
def runStmtsFrom (inj : String → Option String) (total : Nat) :
    List String → Nat → List String × List String × Option String
  | [], _ => ([], [], none)
  | s :: rest, i =>
    match inj s with
    | none =>
      let r := runStmtsFrom inj total rest (i + 1)
      (s :: r.1, ("  ✓ Executed statement " ++ toString i ++ "/" ++ toString total) :: r.2.1, r.2.2)
    | some e => ([s], ["  ✗ Error in statement " ++ toString i ++ ": " ++ e], some e)

/-- `utils.run_cypher_file`: a missing file only prints a warning; an
existing file is split on `;`, each segment stripped, empty segments
discarded, and the surviving statements run in order in one session.
`inj s` is the store error statement `s` raises, if any. -/
def run_cypher_file (inj : String → Option String) (file : Option String) :
    ScriptRes :=
  match file with
  | none => ⟨[], ["Warning: Cypher file not found"], none, 0⟩
  | some content =>
    let stmts := splitStatements content
    let r := runStmtsFrom inj stmts.length stmts 1
    ⟨r.1, "Executing Cypher file" :: r.2.1, r.2.2, 1⟩

/-- A `categories` row. -/
structure CategoryRow where
  id : Int
  name : String
deriving DecidableEq, Repr

/-- A `products` row (`price` is a decimal, modelled as a rational). -/
structure ProductRow where
  id : Int
  name : String
  price : Rat
  category_id : Int
deriving DecidableEq, Repr

/-- A `customers` row. -/
structure CustomerRow where
  id : Int
  name : String
  join_date : DateV
deriving DecidableEq, Repr

/-- An `orders` row. -/
structure OrderRow where
  id : Int
  customer_id : Int
  ts : DTV
deriving DecidableEq, Repr

/-- An `order_items` row. -/
structure OrderItemRow where
  order_id : Int
  product_id : Int
  quantity : Int
deriving DecidableEq, Repr

/-- An `events` row. -/
structure EventRow where
  customer_id : Int
  product_id : Int
  event_type : String
  ts : DTV
deriving DecidableEq, Repr

/-- The relational source read during a run. -/
structure ShopDB where
  categories : List CategoryRow
  products : List ProductRow
  customers : List CustomerRow
  orders : List OrderRow
  order_items : List OrderItemRow
  events : List EventRow
deriving DecidableEq, Repr

/-- The category-stage statements of `etl`, one per row, with parameters
as passed at the call site. -/
def categoryOps (rows : List CategoryRow) : List GOp :=
  rows.map fun r => .createCategory (.int r.id) (.str r.name)

/-- The product-stage statements: `price` passes through `float(...)`. -/
def productOps (rows : List ProductRow) : List GOp :=
  rows.map fun r =>
    .createProduct (.int r.id) (.str r.name) (.float r.price) (.int r.category_id)

/-- The customer-stage statements: `join_date` passes through
`str(row['join_date'])`, producing the ISO string. -/
def customerOps (rows : List CustomerRow) : List GOp :=
  rows.map fun r => .createCustomer (.int r.id) (.str r.name) (.str (pyStrDate r.join_date))

/-- The order-stage statements of `etl`: `ts` passes through
`row['ts'].isoformat()`. -/
def orderOpsISO (rows : List OrderRow) : List GOp :=
  rows.map fun r => .createOrder (.int r.id) (.int r.customer_id) (.str (isoDT r.ts))

/-- The order-item-stage statements: `quantity` passes through `int(...)`. -/
def orderItemOps (rows : List OrderItemRow) : List GOp :=
  rows.map fun r =>
    .createOrderItem (.int r.order_id) (.int r.product_id) (.int r.quantity)

/-- The event-stage statements of `etl`: `ts` via `isoformat()`. -/
def eventOpsISO (rows : List EventRow) : List GOp :=
  rows.map fun r =>
    .createEvent (.int r.customer_id) (.int r.product_id) (.str r.event_type) (.str (isoDT r.ts))

/-- The order-stage statements of `main.migrate_to_neo4j`: `ts` passes
through `str(order['ts'])`, the space-separated form. -/
def orderOpsPy (rows : List OrderRow) : List GOp :=
  rows.map fun r => .createOrder (.int r.id) (.int r.customer_id) (.str (pyStrDT r.ts))

/-- The event-stage statements of `main.migrate_to_neo4j`: `ts` via
`str(event['ts'])`. -/
def eventOpsPy (rows : List EventRow) : List GOp :=
  rows.map fun r =>
    .createEvent (.int r.customer_id) (.int r.product_id) (.str r.event_type) (.str (pyStrDT r.ts))

/-- Running state of the migration body: graph, pending raised error,
sessions used so far (one per `run_cypher` call), printed log. -/
structure BodySt where
  g : Graph
  err : Option String
  sessions : Nat
  log : List String

/-- Issue a list of statements through `run_cypher`, stopping at the first
store error (the exception propagates out of the row loop, skipping the
remaining rows).  Each attempted statement uses exactly one session. -/
def runOps (inj : GOp → Option String) : List GOp → BodySt → BodySt
  | [], st => st
  | op :: rest, st =>
    match st.err with
    | some _ => st
    | none =>
      match run_cypher inj st.g op with
      | (.ok g2, _, _) => runOps inj rest { st with g := g2, sessions := st.sessions + 1 }
      | (.error e, _, _) => { st with err := some e, sessions := st.sessions + 1 }

/-- One `etl` stage: print the stage banner lines, run the per-row
statements, and print the completion line only if no row raised. -/
def runStage (inj : GOp → Option String) (pre post : List String)
    (ops : List GOp) (st : BodySt) : BodySt :=
  match st.err with
  | some _ => st
  | none =>
    let st1 := runOps inj ops { st with log := st.log ++ pre }
    match st1.err with
    | none => { st1 with log := st1.log ++ post }
    | some _ => st1

/-- The schema-setup step of `etl`: when `queries.cypher` exists its
content runs through `run_cypher_file` (one session); absence only logs a
skip line.  Modelled from the spec: the script statements are
constraints/indexes, so they leave graph content unchanged (the file is
not part of the repository). -/
def runSchemaStep (injStmt : String → Option String) (schemaFile : Option String)
    (st : BodySt) : BodySt :=
  match st.err with
  | some _ => st
  | none =>
    match schemaFile with
    | none =>
      { st with log := st.log ++ ["[2/6] No queries.cypher file found, skipping schema setup"] }
    | some content =>
      let r := run_cypher_file injStmt (some content)
      { st with err := r.err, sessions := st.sessions + r.sessions,
                log := st.log ++ ["[2/6] Setting up Neo4j schema..."] ++ r.log }

/-- The per-entity bullet lines `etl` prints in its completion summary. -/
def summaryLines (db : ShopDB) : List String :=
  ["ETL Process Completed Successfully!", "Migrated:",
   "  • " ++ toString db.categories.length ++ " categories",
   "  • " ++ toString db.products.length ++ " products",
   "  • " ++ toString db.customers.length ++ " customers",
   "  • " ++ toString db.orders.length ++ " orders",
   "  • " ++ toString db.order_items.length ++ " order items",
   "  • " ++ toString db.events.length ++ " customer events"]

/-- On success, `etl` prints the completion summary with the per-entity
counts; on failure the summary is skipped. -/
def finishSummary (db : ShopDB) (st : BodySt) : BodySt :=
  match st.err with
  | none => { st with log := st.log ++ summaryLines db }
  | some _ => st

/-- The `try:` block of `etl`: wipe, schema setup, then the six entity
stages in source order, with the log lines the source prints. -/
def etlBody (inj : GOp → Option String) (injStmt : String → Option String)
    (schemaFile : Option String) (db : ShopDB) (g0 : Graph) : BodySt :=
  let st := runStage inj ["[1/6] Clearing existing Neo4j data..."]
    ["  ✓ Neo4j database cleared"] [GOp.wipe] ⟨g0, none, 0, []⟩
  let st := runSchemaStep injStmt schemaFile st
  let st := runStage inj
    ["[3/6] Migrating Categories...",
     "  Found " ++ toString db.categories.length ++ " categories"]
    ["  ✓ Migrated " ++ toString db.categories.length ++ " categories"]
    (categoryOps db.categories) st
  let st := runStage inj
    ["[4/6] Migrating Products...",
     "  Found " ++ toString db.products.length ++ " products"]
    ["  ✓ Migrated " ++ toString db.products.length ++ " products"]
    (productOps db.products) st
  let st := runStage inj
    ["[5/6] Migrating Customers...",
     "  Found " ++ toString db.customers.length ++ " customers"]
    ["  ✓ Migrated " ++ toString db.customers.length ++ " customers"]
    (customerOps db.customers) st
  let st := runStage inj
    ["[6/6] Migrating Orders and Order Items...",
     "  Found " ++ toString db.orders.length ++ " orders"]
    ["  ✓ Created " ++ toString db.orders.length ++ " orders"]
    (orderOpsISO db.orders) st
  let st := runStage inj
    ["  Found " ++ toString db.order_items.length ++ " order items"]
    ["  ✓ Created " ++ toString db.order_items.length ++ " order-product relationships"]
    (orderItemOps db.order_items) st
  let st := runStage inj
    ["[Bonus] Migrating Customer Events...",
     "  Found " ++ toString db.events.length ++ " events"]
    ["  ✓ Created " ++ toString db.events.length ++ " interaction relationships"]
    (eventOpsISO db.events) st
  finishSummary db st

/-- Lifecycle of a process-level resource (the psycopg2 connection and the
Neo4j driver `etl` opens). -/
inductive ConnState where
  | neverOpened
  | stillOpen
  | closed
deriving DecidableEq, Repr

/-- Environment a run executes in: readiness-probe outcomes, whether the
post-gate `psycopg2.connect` succeeds, the `queries.cypher` content if the
file exists, and the store-error injections. -/
structure Env where
  pgProbe : Nat → Bool
  njProbe : Nat → Bool
  pgConnectOk : Bool
  schemaFile : Option String
  inj : GOp → Option String
  injStmt : String → Option String

/-- Everything observable about one `etl()` run: final graph, raised
error (`none` = the run completed), printed log, the final lifecycle
state of the relational connection and the graph driver, and the graph
sessions opened/closed.  The Python function returns `None`; there is no
return value carrying counts. -/
structure EtlResult where
  graph : Graph
  err : Option String
  log : List String
  pgConn : ConnState
  njDriver : ConnState
  sessionsOpened : Nat
  sessionsClosed : Nat

/-- `etl.etl()`: readiness gates (default arguments `max_retries=30`,
`delay=2`), connect, then the body inside `try ... finally`, which closes
both the relational connection and the graph driver on success and on
raise alike.  A failure before the connections are opened leaves them
never-opened (and the graph untouched). -/
def etl (env : Env) (db : ShopDB) (g0 : Graph) : EtlResult :=
  match (wait_for_postgres env.pgProbe 30 2).result with
  | .error e => ⟨g0, some e, [], .neverOpened, .neverOpened, 0, 0⟩
  | .ok _ =>
    match (wait_for_neo4j env.njProbe 30 2).result with
    | .error e => ⟨g0, some e, [], .neverOpened, .neverOpened, 0, 0⟩
    | .ok _ =>
      if env.pgConnectOk then
        let st := etlBody env.inj env.injStmt env.schemaFile db g0
        let log2 := match st.err with
          | some e => st.log ++ ["✗ ETL process failed: " ++ e]
          | none => st.log
        ⟨st.g, st.err, log2 ++ ["Database connections closed."],
         .closed, .closed, st.sessions, st.sessions⟩
      else ⟨g0, some "could not connect to PostgreSQL", [], .neverOpened, .neverOpened, 0, 0⟩

/-- Result of `main.migrate_to_neo4j`: the graph and the HTTP response —
on success the literal `{"status": "success", "message": "Data migrated
to Neo4j"}` dict, on failure the 500 error detail. -/
structure MigrateResult where
  graph : Graph
  retVal : Except String (List (String × String))
deriving DecidableEq, Repr

/-- `main.migrate_to_neo4j` (`POST /neo4j/migrate`): one driver session
for the whole body; wipes, then migrates Customers, Categories, Products,
Orders, Order Items, Events — in that source order.  Order and event
timestamps pass through `str(...)`, not `isoformat()`. -/
def migrate_to_neo4j (inj : GOp → Option String) (db : ShopDB) (g0 : Graph) :
    MigrateResult :=
  let st := runOps inj ([GOp.wipe] ++ customerOps db.customers ++
    categoryOps db.categories ++ productOps db.products ++
    orderOpsPy db.orders ++ orderItemOps db.order_items ++
    eventOpsPy db.events) ⟨g0, none, 0, []⟩
  { graph := st.g
    retVal := match st.err with
      | none => .ok [("status", "success"), ("message", "Data migrated to Neo4j")]
      | some e => .error e }
section WaitLemmas

theorem waitLoopAux_allFail (probe : Nat → Bool) (delay : Nat) (msg : String) :
    ∀ (fuel i : Nat), 1 ≤ fuel → (∀ k, k < fuel → probe (i + k) = false) →
    waitLoopAux probe delay msg fuel i =
      ⟨fuel, List.replicate (fuel - 1) delay, .error msg⟩
  | 0, _, h, _ => by omega
  | 1, i, _, hf => by
    have h0 : probe i = false := by simpa using hf 0 (by omega)
    simp [waitLoopAux, h0]
  | fuel + 2, i, _, hf => by
    have h0 : probe i = false := by simpa using hf 0 (by omega)
    have ih := waitLoopAux_allFail probe delay msg (fuel + 1) (i + 1) (by omega)
      (fun k hk => by
        rw [show i + 1 + k = i + (k + 1) from by omega]
        exact hf (k + 1) (by omega))
    simp [waitLoopAux, h0, ih, List.replicate_succ]

theorem waitLoopAux_firstSucc (probe : Nat → Bool) (delay : Nat) (msg : String) :
    ∀ (fuel i j : Nat), j < fuel → probe (i + j) = true →
    (∀ k, k < j → probe (i + k) = false) →
    waitLoopAux probe delay msg fuel i = ⟨j + 1, List.replicate j delay, .ok ()⟩
  | 0, _, _, hj, _, _ => by omega
  | 1, i, j, hj, hs, _ => by
    have hj0 : j = 0 := by omega
    subst hj0
    have h0 : probe i = true := by simpa using hs
    simp [waitLoopAux, h0]
  | fuel + 2, i, j, hj, hs, hf => by
    match j with
    | 0 =>
      have h0 : probe i = true := by simpa using hs
      simp [waitLoopAux, h0]
    | j' + 1 =>
      have h0 : probe i = false := by simpa using hf 0 (by omega)
      have ih := waitLoopAux_firstSucc probe delay msg (fuel + 1) (i + 1) j'
        (by omega) (by rw [show i + 1 + j' = i + (j' + 1) from by omega]; exact hs)
        (fun k hk => by
          rw [show i + 1 + k = i + (k + 1) from by omega]
          exact hf (k + 1) (by omega))
      simp [waitLoopAux, h0, ih, List.replicate_succ]

theorem waitLoopAux_error_fail (probe : Nat → Bool) (delay : Nat) (msg e : String) :
    ∀ (fuel i : Nat),
    (waitLoopAux probe delay msg fuel i).result = .error e →
    1 ≤ fuel ∧ ∀ k, k < fuel → probe (i + k) = false
  | 0, i, h => by simp [waitLoopAux] at h
  | 1, i, h => by
    cases hp : probe i with
    | true => simp [waitLoopAux, hp] at h
    | false =>
      refine ⟨by omega, fun k hk => ?_⟩
      have hk0 : k = 0 := by omega
      subst hk0
      simpa using hp
  | fuel + 2, i, h => by
    cases hp : probe i with
    | true => simp [waitLoopAux, hp] at h
    | false =>
      have h2 : (waitLoopAux probe delay msg (fuel + 1) (i + 1)).result = .error e := by
        simpa [waitLoopAux, hp] using h
      have ih := waitLoopAux_error_fail probe delay msg e (fuel + 1) (i + 1) h2
      refine ⟨by omega, fun k hk => ?_⟩
      match k with
      | 0 => simpa using hp
      | k' + 1 =>
        rw [show i + (k' + 1) = i + 1 + k' from by omega]
        exact ih.2 k' (by omega)

end WaitLemmas

/-- C7: for every `max_retries ≥ 1`, each readiness gate probes the store
up to `max_retries` times, sleeping `delay` between consecutive failed
attempts (and only between them), returns as soon as one probe succeeds
(after `j` failures: `j + 1` probes, `j` sleeps), and after the
`max_retries`-th consecutive failure raises a terminal error whose
message names the store and the attempt count. -/
theorem readiness_gate_retry_and_terminal_error
    (pgProbe njProbe : Nat → Bool) (mr : Int) (delay : Nat) (hmr : 1 ≤ mr) :
    ((∀ i, i < mr.toNat → pgProbe i = false) →
      wait_for_postgres pgProbe mr delay =
        ⟨mr.toNat, List.replicate (mr.toNat - 1) delay,
         .error ("PostgreSQL not ready after " ++ toString mr ++ " attempts")⟩) ∧
    (∀ j, j < mr.toNat → pgProbe j = true → (∀ i, i < j → pgProbe i = false) →
      wait_for_postgres pgProbe mr delay = ⟨j + 1, List.replicate j delay, .ok ()⟩) ∧
    ((∀ i, i < mr.toNat → njProbe i = false) →
      wait_for_neo4j njProbe mr delay =
        ⟨mr.toNat, List.replicate (mr.toNat - 1) delay,
         .error ("Neo4j not ready after " ++ toString mr ++ " attempts")⟩) ∧
    (∀ j, j < mr.toNat → njProbe j = true → (∀ i, i < j → njProbe i = false) →
      wait_for_neo4j njProbe mr delay = ⟨j + 1, List.replicate j delay, .ok ()⟩) := by
  have hn : 1 ≤ mr.toNat := by omega
  refine ⟨fun hf => ?_, fun j hj hs hf => ?_, fun hf => ?_, fun j hj hs hf => ?_⟩
  · exact waitLoopAux_allFail pgProbe delay _ mr.toNat 0 hn (fun k hk => by simpa using hf k hk)
  · exact waitLoopAux_firstSucc pgProbe delay _ mr.toNat 0 j hj (by simpa using hs)
      (fun k hk => by simpa using hf k hk)
  · exact waitLoopAux_allFail njProbe delay _ mr.toNat 0 hn (fun k hk => by simpa using hf k hk)
  · exact waitLoopAux_firstSucc njProbe delay _ mr.toNat 0 j hj (by simpa using hs)
      (fun k hk => by simpa using hf k hk)

/-- Witness for C7 at concrete inputs: with 2 attempts and both probes
failing, `wait_for_postgres` raises the terminal message after 2 probes
and one sleep; with the probe succeeding on attempt index 1,
`wait_for_neo4j` returns after 2 probes and one sleep. -/
theorem readiness_gate_retry_and_terminal_error_witness :
    wait_for_postgres (fun _ => false) 2 7 =
      ⟨2, [7], .error "PostgreSQL not ready after 2 attempts"⟩ ∧
    wait_for_neo4j (fun i => decide (i = 1)) 2 7 = ⟨2, [7], .ok ()⟩ := by
  have h := readiness_gate_retry_and_terminal_error
    (fun _ => false) (fun i => decide (i = 1)) 2 7 (by decide)
  refine ⟨?_, ?_⟩
  · have := h.1 (fun i _ => rfl)
    simpa using this
  · have := h.2.2.2 1 (by decide) (by decide)
      (fun i hi => by
        have hi0 : i = 0 := by omega
        subst hi0
        decide)
    simpa using this

/-- C10: a readiness probe raises precisely when `max_retries ≥ 1` and
every attempt fails; with `max_retries = 0` or negative, Python
`range(max_retries)` is empty, so both gates return successfully with no
connectivity probe performed at all. -/
theorem readiness_gate_zero_attempts
    (pgProbe njProbe : Nat → Bool) (mr : Int) (delay : Nat) :
    ((∃ e, (wait_for_postgres pgProbe mr delay).result = .error e) ↔
      (1 ≤ mr ∧ ∀ i, i < mr.toNat → pgProbe i = false)) ∧
    ((∃ e, (wait_for_neo4j njProbe mr delay).result = .error e) ↔
      (1 ≤ mr ∧ ∀ i, i < mr.toNat → njProbe i = false)) ∧
    (mr ≤ 0 → wait_for_postgres pgProbe mr delay = ⟨0, [], .ok ()⟩ ∧
              wait_for_neo4j njProbe mr delay = ⟨0, [], .ok ()⟩) := by
  refine ⟨⟨fun ⟨e, he⟩ => ?_, fun ⟨h1, hf⟩ => ?_⟩, ⟨fun ⟨e, he⟩ => ?_, fun ⟨h1, hf⟩ => ?_⟩,
          fun hmr => ?_⟩
  · have := waitLoopAux_error_fail pgProbe delay _ e mr.toNat 0 he
    exact ⟨by omega, fun i hi => by simpa using this.2 i hi⟩
  · have := waitLoopAux_allFail pgProbe delay
      ("PostgreSQL not ready after " ++ toString mr ++ " attempts") mr.toNat 0
      (by omega) (fun k hk => by simpa using hf k hk)
    exact ⟨"PostgreSQL not ready after " ++ toString mr ++ " attempts",
      by simp [wait_for_postgres, this]⟩
  · have := waitLoopAux_error_fail njProbe delay _ e mr.toNat 0 he
    exact ⟨by omega, fun i hi => by simpa using this.2 i hi⟩
  · have := waitLoopAux_allFail njProbe delay
      ("Neo4j not ready after " ++ toString mr ++ " attempts") mr.toNat 0
      (by omega) (fun k hk => by simpa using hf k hk)
    exact ⟨"Neo4j not ready after " ++ toString mr ++ " attempts",
      by simp [wait_for_neo4j, this]⟩
  · have h0 : mr.toNat = 0 := by omega
    constructor
    · simp [wait_for_postgres, h0, waitLoopAux]
    · simp [wait_for_neo4j, h0, waitLoopAux]

/-- Witness for C10 at a concrete negative input: with `max_retries = -3`
both gates return `ok` with zero probes and zero sleeps. -/
theorem readiness_gate_zero_attempts_witness :
    wait_for_postgres (fun _ => false) (-3) 7 = ⟨0, [], .ok ()⟩ ∧
    wait_for_neo4j (fun _ => false) (-3) 7 = ⟨0, [], .ok ()⟩ :=
  (readiness_gate_zero_attempts (fun _ => false) (fun _ => false) (-3) 7).2.2 (by decide)

/-- The success lines the statement loop prints for a list of statements
starting at 1-based index `i`. -/
def okLines (total : Nat) : List String → Nat → List String
  | [], _ => []
  | _ :: rest, i =>
    ("  ✓ Executed statement " ++ toString i ++ "/" ++ toString total) :: okLines total rest (i + 1)

theorem runStmtsFrom_allOk (inj : String → Option String) (total : Nat) :
    ∀ (stmts : List String) (i : Nat), (∀ s ∈ stmts, inj s = none) →
    runStmtsFrom inj total stmts i = (stmts, okLines total stmts i, none)
  | [], i, _ => by simp [runStmtsFrom, okLines]
  | s :: rest, i, h => by
    have hs : inj s = none := h s (by simp)
    have ih := runStmtsFrom_allOk inj total rest (i + 1) (fun x hx => h x (by simp [hx]))
    simp [runStmtsFrom, okLines, hs, ih]

theorem runStmtsFrom_firstFail (inj : String → Option String) (total : Nat)
    (bad e : String) (post : List String) (hbad : inj bad = some e) :
    ∀ (pre : List String) (i : Nat), (∀ s ∈ pre, inj s = none) →
    runStmtsFrom inj total (pre ++ bad :: post) i =
      (pre ++ [bad],
       okLines total pre i ++
         ["  ✗ Error in statement " ++ toString (i + pre.length) ++ ": " ++ e],
       some e)
  | [], i, _ => by simp [runStmtsFrom, okLines, hbad]
  | p :: pre', i, h => by
    have hp : inj p = none := h p (by simp)
    have ih := runStmtsFrom_firstFail inj total bad e post hbad pre' (i + 1)
      (fun x hx => h x (by simp [hx]))
    have hlen : i + 1 + pre'.length = i + (pre'.length + 1) := by omega
    simp [runStmtsFrom, hp, ih, okLines, hlen]

/-- C6: the schema initializer splits the script content on `;`, strips
each segment, discards segments empty after stripping, and (when no
statement fails) submits exactly the surviving statements, in file order,
through a single graph session. -/
theorem schema_script_statement_splitting
    (inj : String → Option String) (content : String)
    (hok : ∀ s ∈ splitStatements content, inj s = none) :
    (run_cypher_file inj (some content)).submitted =
      ((pySplitSemi content).map pyStrip).filter (fun s => !s.isEmpty) ∧
    (run_cypher_file inj (some content)).err = none ∧
    (run_cypher_file inj (some content)).sessions = 1 := by
  have h := runStmtsFrom_allOk inj (splitStatements content).length
    (splitStatements content) 1 hok
  refine ⟨?_, ?_, rfl⟩
  · have h1 : (run_cypher_file inj (some content)).submitted = splitStatements content := by
      simp [run_cypher_file, h]
    simpa only [splitStatements] using h1
  · simp [run_cypher_file, h]

/-- Witness for C6: a script with trailing semicolon, internal blank
segment and surrounding whitespace yields exactly the stripped non-empty
statements, no error, one session. -/
theorem schema_script_statement_splitting_witness :
    (run_cypher_file (fun _ => none)
      (some "CREATE A;  ;\n CREATE B ;CREATE C;")).submitted =
        ["CREATE A", "CREATE B", "CREATE C"] ∧
    (run_cypher_file (fun _ => none)
      (some "CREATE A;  ;\n CREATE B ;CREATE C;")).err = none ∧
    (run_cypher_file (fun _ => none)
      (some "CREATE A;  ;\n CREATE B ;CREATE C;")).sessions = 1 := by
  have h := schema_script_statement_splitting (fun _ => none)
    "CREATE A;  ;\n CREATE B ;CREATE C;" (fun s _ => rfl)
  exact ⟨by rw [h.1]; decide, h.2.1, h.2.2⟩

/-- C4 (amended): a failing schema statement aborts the script
immediately — the statements submitted are exactly those up to and
including the failing one; the printed log line names the 1-based index
of the failing statement and the store error; but the raised error is
the original store error, unchanged, so neither the raised error nor the
log is guaranteed to contain the statement's text. -/
theorem schema_script_failure_aborts
    (inj : String → Option String) (content : String) (pre post : List String)
    (bad e : String)
    (hsplit : splitStatements content = pre ++ bad :: post)
    (hpre : ∀ s ∈ pre, inj s = none) (hbad : inj bad = some e) :
    (run_cypher_file inj (some content)).submitted = pre ++ [bad] ∧
    (run_cypher_file inj (some content)).err = some e ∧
    (run_cypher_file inj (some content)).log =
      "Executing Cypher file" ::
        (okLines (splitStatements content).length pre 1 ++
         ["  ✗ Error in statement " ++ toString (pre.length + 1) ++ ": " ++ e]) := by
  have h := runStmtsFrom_firstFail inj (splitStatements content).length bad e post hbad pre 1 hpre
  rw [← hsplit] at h
  have hidx : 1 + pre.length = pre.length + 1 := by omega
  refine ⟨?_, ?_, ?_⟩
  · simp [run_cypher_file, h]
  · simp [run_cypher_file, h]
  · simp [run_cypher_file, h, hidx]

/-- Witness for C4's amended theorem at a concrete script. -/
theorem schema_script_failure_aborts_witness :
    (run_cypher_file (fun s => if s = "STMT_B" then some "boom" else none)
      (some "STMT_A; STMT_B; STMT_C")).submitted = ["STMT_A", "STMT_B"] ∧
    (run_cypher_file (fun s => if s = "STMT_B" then some "boom" else none)
      (some "STMT_A; STMT_B; STMT_C")).err = some "boom" ∧
    (run_cypher_file (fun s => if s = "STMT_B" then some "boom" else none)
      (some "STMT_A; STMT_B; STMT_C")).log =
      ["Executing Cypher file", "  ✓ Executed statement 1/3",
       "  ✗ Error in statement 2: boom"] := by
  have h := schema_script_failure_aborts
    (fun s => if s = "STMT_B" then some "boom" else none)
    "STMT_A; STMT_B; STMT_C" ["STMT_A"] ["STMT_C"] "STMT_B" "boom"
    (by decide) (by decide) (by decide)
  refine ⟨by rw [h.1]; decide, h.2.1, by rw [h.2.2]; decide⟩

/-- Is `needle` a prefix of the second list? -/
def isPrefixCh : List Char → List Char → Bool
  | [], _ => true
  | _ :: _, [] => false
  | a :: xs, b :: ys => decide (a = b) && isPrefixCh xs ys

/-- Does `hay` contain `needle` as a contiguous substring? -/
def containsSub (needle : List Char) : List Char → Bool
  | [] => isPrefixCh needle []
  | hay@(_ :: rest) => isPrefixCh needle hay || containsSub needle rest

/-- C4 (counterexample to the claim as stated): the error `run_cypher_file`
raises is the original store error, re-raised unchanged; at this input it
is `"boom"`, which contains neither the failing statement's 1-based index
(`2`) nor the statement's text (`STMT_B`). -/
theorem schema_script_error_lacks_index_and_text :
    (run_cypher_file (fun s => if s = "STMT_B" then some "boom" else none)
      (some "STMT_A; STMT_B; STMT_C")).err = some "boom" ∧
    containsSub "STMT_B".data "boom".data = false ∧
    containsSub "2".data "boom".data = false := by
  refine ⟨?_, by decide, by decide⟩
  decide

/-- C9: on every exit path of an `etl()` run — readiness failure,
connection failure, a store error raised mid-run, or success — neither
the relational connection nor the graph driver is left open (the
`try/finally` closes both whenever they were opened), and every graph
session `run_cypher` opened was closed (`with driver.session()` releases
the session both when the query finishes and when it raises): the
sessions-opened and sessions-closed counts agree. -/
theorem connections_closed_on_every_exit_path (env : Env) (db : ShopDB) (g0 : Graph) :
    (etl env db g0).pgConn ≠ ConnState.stillOpen ∧
    (etl env db g0).njDriver ≠ ConnState.stillOpen ∧
    (etl env db g0).sessionsOpened = (etl env db g0).sessionsClosed := by
  unfold etl
  cases (wait_for_postgres env.pgProbe 30 2).result with
  | error e => simp
  | ok _ =>
    cases (wait_for_neo4j env.njProbe 30 2).result with
    | error e => simp
    | ok _ =>
      by_cases h : env.pgConnectOk
      · simp [h]
      · simp [h]

/-- The single-statement helper `run_cypher` opens exactly one session
and closes exactly one session, on the success path and on the raise
path alike. -/
theorem run_cypher_session_balanced (inj : GOp → Option String) (g : Graph) (op : GOp) :
    (run_cypher inj g op).2.1 = 1 ∧ (run_cypher inj g op).2.2 = 1 :=
  ⟨rfl, rfl⟩

/-- Environment with both stores ready, the connection succeeding, no
`queries.cypher` file and no store errors. -/
def envAllOk : Env :=
  ⟨fun _ => true, fun _ => true, true, none, fun _ => none, fun _ => none⟩

/-- Environment where PostgreSQL never becomes ready. -/
def envPgDown : Env :=
  ⟨fun _ => false, fun _ => true, true, none, fun _ => none, fun _ => none⟩

/-- The spec's example calendar date 2024-01-15. -/
def date0 : DateV := ⟨2024, 1, 15⟩

/-- The spec's example instant 2024-01-15T10:30:00. -/
def ts0 : DTV := ⟨⟨2024, 1, 15⟩, 10, 30, 0⟩

/-- A small well-formed source: one row per table, all foreign keys
resolving. -/
def dbSmall : ShopDB :=
  { categories := [⟨1, "Books"⟩]
    products := [⟨1, "Graph Databases", 10, 1⟩]
    customers := [⟨1, "Alice", date0⟩]
    orders := [⟨1, 1, ts0⟩]
    order_items := [⟨1, 1, 2⟩]
    events := [⟨1, 1, "view", ts0⟩] }

/-- Like `dbSmall`, but the single order item references product id 99,
which matches no product row. -/
def dbDangling : ShopDB :=
  { categories := [⟨1, "Books"⟩]
    products := [⟨1, "Graph Databases", 10, 1⟩]
    customers := [⟨1, "Alice", date0⟩]
    orders := [⟨1, 1, ts0⟩]
    order_items := [⟨1, 99, 2⟩]
    events := [] }

/-- The `CONTAINS` relationships of a graph. -/
def containsRels (g : Graph) : List GRel :=
  g.rels.filter (fun r => decide (r.rtype = "CONTAINS"))

/-- A graph holding a pre-existing sentinel node, as in the spec's
full-wipe test. -/
def sentinelGraph : Graph := ⟨[⟨0, "Sentinel", .int 0, []⟩], [], 1⟩

/-- C1 (counterexample to the claim as stated): with an `order_items` row
whose `product_id` (99) matches no `Product` node, the default `etl` run
completes with no error, creates no `CONTAINS` relationship, and its log
even reports `✓ Created 1 order-product relationships` — the row is
skipped with no recorded signal, and the run does not abort. -/
theorem dangling_order_item_run_completes :
    (etl envAllOk dbDangling ⟨[], [], 0⟩).err = none ∧
    containsRels (etl envAllOk dbDangling ⟨[], [], 0⟩).graph = [] ∧
    "  ✓ Created 1 order-product relationships" ∈
      (etl envAllOk dbDangling ⟨[], [], 0⟩).log := by
  refine ⟨by decide, by decide, by decide⟩

/-- C2 (counterexample to the claim as stated): the migration run of
`main.migrate_to_neo4j` creates its nodes in the order Customer,
Category, Product, Order — the Customers stage runs before Categories,
not after Products as the claimed fixed stage order requires. -/
theorem migrate_stage_order_counterexample :
    (migrate_to_neo4j (fun _ => none) dbSmall ⟨[], [], 0⟩).graph.nodes.map
      (fun n => n.label) = ["Customer", "Category", "Product", "Order"] := by
  decide

/-- C3 (counterexample to the claim as stated): a completing
`migrate_to_neo4j` run returns the fixed two-field status dict — no
per-entity processed counts are available to the caller; `etl()` itself
returns `None`. -/
theorem summary_not_returned_counterexample :
    (migrate_to_neo4j (fun _ => none) dbSmall ⟨[], [], 0⟩).retVal =
      .ok [("status", "success"), ("message", "Data migrated to Neo4j")] := by
  decide

/-- C5 (counterexample to the claim as stated): a run that fails before
the wipe — here the PostgreSQL readiness gate exhausts its attempts —
leaves the graph exactly as it was: the pre-existing sentinel node
survives the failed run. -/
theorem failed_run_keeps_prior_content :
    (etl envPgDown dbSmall sentinelGraph).err =
      some "PostgreSQL not ready after 30 attempts" ∧
    (etl envPgDown dbSmall sentinelGraph).graph = sentinelGraph := by
  refine ⟨by decide, by decide⟩

/-- Dates the Python/Cypher serialisation round trip covers (every real
calendar date satisfies this). -/
def dateValid (d : DateV) : Prop := d.year < 10000 ∧ d.month < 100 ∧ d.day < 100

/-- Timestamps the serialisation round trip covers. -/
def dtValid (t : DTV) : Prop := dateValid t.date ∧ t.hh < 100 ∧ t.mi < 100 ∧ t.ss < 100

instance (d : DateV) : Decidable (dateValid d) := by
  unfold dateValid
  infer_instance

instance (t : DTV) : Decidable (dtValid t) := by
  unfold dtValid
  infer_instance

theorem charDigit_digitChar (k : Nat) (hk : k < 10) :
    charDigit (Nat.digitChar k) = k := by
  interval_cases k <;> decide

theorem isDigit_digitChar (k : Nat) (hk : k < 10) :
    (Nat.digitChar k).isDigit = true := by
  interval_cases k <;> decide

theorem parse_pyStrDate (d : DateV) (h : dateValid d) :
    parseCypherDate (pyStrDate d) = some d := by
  have hy : d.year < 10000 := h.1
  have hm : d.month < 100 := h.2.1
  have hd : d.day < 100 := h.2.2
  obtain ⟨y, m, dd⟩ := d
  dsimp only at hy hm hd
  have b1 : y / 1000 < 10 := by omega
  have b2 : y / 100 % 10 < 10 := by omega
  have b3 : y / 10 % 10 < 10 := by omega
  have b4 : y % 10 < 10 := by omega
  have b5 : m / 10 < 10 := by omega
  have b6 : m % 10 < 10 := by omega
  have b7 : dd / 10 < 10 := by omega
  have b8 : dd % 10 < 10 := by omega
  simp only [pyStrDate, pad4, pad2, List.cons_append, List.nil_append, parseCypherDate,
    isDigit_digitChar _ b1, isDigit_digitChar _ b2, isDigit_digitChar _ b3,
    isDigit_digitChar _ b4, isDigit_digitChar _ b5, isDigit_digitChar _ b6,
    isDigit_digitChar _ b7, isDigit_digitChar _ b8,
    charDigit_digitChar _ b1, charDigit_digitChar _ b2, charDigit_digitChar _ b3,
    charDigit_digitChar _ b4, charDigit_digitChar _ b5, charDigit_digitChar _ b6,
    charDigit_digitChar _ b7, charDigit_digitChar _ b8]
  simp only [decide_True, Bool.and_true, Bool.true_and, if_true, Option.some.injEq,
    DateV.mk.injEq]
  refine ⟨?_, ?_, ?_⟩ <;> omega

theorem parse_isoDT (t : DTV) (h : dtValid t) :
    parseCypherDT (isoDT t) = some t := by
  have hy : t.date.year < 10000 := h.1.1
  have hm : t.date.month < 100 := h.1.2.1
  have hd : t.date.day < 100 := h.1.2.2
  have hh : t.hh < 100 := h.2.1
  have hmi : t.mi < 100 := h.2.2.1
  have hss : t.ss < 100 := h.2.2.2
  obtain ⟨⟨y, m, dd⟩, a, b, c⟩ := t
  dsimp only at hy hm hd hh hmi hss
  have b1 : y / 1000 < 10 := by omega
  have b2 : y / 100 % 10 < 10 := by omega
  have b3 : y / 10 % 10 < 10 := by omega
  have b4 : y % 10 < 10 := by omega
  have b5 : m / 10 < 10 := by omega
  have b6 : m % 10 < 10 := by omega
  have b7 : dd / 10 < 10 := by omega
  have b8 : dd % 10 < 10 := by omega
  have c1 : a / 10 < 10 := by omega
  have c2 : a % 10 < 10 := by omega
  have c3 : b / 10 < 10 := by omega
  have c4 : b % 10 < 10 := by omega
  have c5 : c / 10 < 10 := by omega
  have c6 : c % 10 < 10 := by omega
  simp only [isoDT, pad4, pad2, List.cons_append, List.nil_append, parseCypherDT,
    isDigit_digitChar _ b1, isDigit_digitChar _ b2, isDigit_digitChar _ b3,
    isDigit_digitChar _ b4, isDigit_digitChar _ b5, isDigit_digitChar _ b6,
    isDigit_digitChar _ b7, isDigit_digitChar _ b8,
    isDigit_digitChar _ c1, isDigit_digitChar _ c2, isDigit_digitChar _ c3,
    isDigit_digitChar _ c4, isDigit_digitChar _ c5, isDigit_digitChar _ c6,
    charDigit_digitChar _ b1, charDigit_digitChar _ b2, charDigit_digitChar _ b3,
    charDigit_digitChar _ b4, charDigit_digitChar _ b5, charDigit_digitChar _ b6,
    charDigit_digitChar _ b7, charDigit_digitChar _ b8,
    charDigit_digitChar _ c1, charDigit_digitChar _ c2, charDigit_digitChar _ c3,
    charDigit_digitChar _ c4, charDigit_digitChar _ c5, charDigit_digitChar _ c6]
  simp only [decide_True, Bool.and_true, Bool.true_and, Bool.true_or, Bool.or_true, if_true,
    Option.some.injEq, DTV.mk.injEq, DateV.mk.injEq]
  refine ⟨⟨?_, ?_, ?_⟩, ?_, ?_, ?_⟩ <;> omega

theorem parse_pyStrDT (t : DTV) (h : dtValid t) :
    parseCypherDT (pyStrDT t) = some t := by
  have hy : t.date.year < 10000 := h.1.1
  have hm : t.date.month < 100 := h.1.2.1
  have hd : t.date.day < 100 := h.1.2.2
  have hh : t.hh < 100 := h.2.1
  have hmi : t.mi < 100 := h.2.2.1
  have hss : t.ss < 100 := h.2.2.2
  obtain ⟨⟨y, m, dd⟩, a, b, c⟩ := t
  dsimp only at hy hm hd hh hmi hss
  have b1 : y / 1000 < 10 := by omega
  have b2 : y / 100 % 10 < 10 := by omega
  have b3 : y / 10 % 10 < 10 := by omega
  have b4 : y % 10 < 10 := by omega
  have b5 : m / 10 < 10 := by omega
  have b6 : m % 10 < 10 := by omega
  have b7 : dd / 10 < 10 := by omega
  have b8 : dd % 10 < 10 := by omega
  have c1 : a / 10 < 10 := by omega
  have c2 : a % 10 < 10 := by omega
  have c3 : b / 10 < 10 := by omega
  have c4 : b % 10 < 10 := by omega
  have c5 : c / 10 < 10 := by omega
  have c6 : c % 10 < 10 := by omega
  simp only [pyStrDT, pad4, pad2, List.cons_append, List.nil_append, parseCypherDT,
    isDigit_digitChar _ b1, isDigit_digitChar _ b2, isDigit_digitChar _ b3,
    isDigit_digitChar _ b4, isDigit_digitChar _ b5, isDigit_digitChar _ b6,
    isDigit_digitChar _ b7, isDigit_digitChar _ b8,
    isDigit_digitChar _ c1, isDigit_digitChar _ c2, isDigit_digitChar _ c3,
    isDigit_digitChar _ c4, isDigit_digitChar _ c5, isDigit_digitChar _ c6,
    charDigit_digitChar _ b1, charDigit_digitChar _ b2, charDigit_digitChar _ b3,
    charDigit_digitChar _ b4, charDigit_digitChar _ b5, charDigit_digitChar _ b6,
    charDigit_digitChar _ b7, charDigit_digitChar _ b8,
    charDigit_digitChar _ c1, charDigit_digitChar _ c2, charDigit_digitChar _ c3,
    charDigit_digitChar _ c4, charDigit_digitChar _ c5, charDigit_digitChar _ c6]
  simp only [decide_True, Bool.and_true, Bool.true_and, Bool.true_or, Bool.or_true, if_true,
    Option.some.injEq, DTV.mk.injEq, DateV.mk.injEq]
  refine ⟨⟨?_, ?_, ?_⟩, ?_, ?_, ?_⟩ <;> omega

/-- A consecutive block of nodes with one label, numbered from `b`: one
node per (id value, remaining properties) pair. -/
def mkBlock (L : String) : Nat → List (GVal × List (String × GVal)) → List GNode
  | _, [] => []
  | b, (v, ps) :: rest => ⟨b, L, v, ps⟩ :: mkBlock L (b + 1) rest

/-- 0-based index of the first row whose id equals `i`. -/
def idIdx {α : Type} (idOf : α → Int) (rows : List α) (i : Int) : Nat :=
  rows.findIdx (fun r => decide (idOf r = i))

theorem mkBlock_length (L : String) :
    ∀ (items : List (GVal × List (String × GVal))) (b : Nat),
    (mkBlock L b items).length = items.length
  | [], _ => rfl
  | _ :: rest, b => by simp [mkBlock, mkBlock_length L rest (b + 1)]

theorem mkBlock_append (L : String) :
    ∀ (xs ys : List (GVal × List (String × GVal))) (b : Nat),
    mkBlock L b (xs ++ ys) = mkBlock L b xs ++ mkBlock L (b + xs.length) ys
  | [], ys, b => by simp [mkBlock]
  | x :: xs, ys, b => by
    obtain ⟨v, ps⟩ := x
    have ih := mkBlock_append L xs ys (b + 1)
    simp [mkBlock, ih]
    congr 1
    omega

theorem mkBlock_filter_ne_label (L L' : String) (v : GVal) (h : ¬ L = L') :
    ∀ (items : List (GVal × List (String × GVal))) (b : Nat),
    (mkBlock L b items).filter (nodeMatches L' v) = []
  | [], _ => rfl
  | (w, ps) :: rest, b => by
    simp [mkBlock, List.filter, nodeMatches, h, mkBlock_filter_ne_label L L' v h rest (b + 1)]

theorem mkBlock_labels (L : String) :
    ∀ (items : List (GVal × List (String × GVal))) (b : Nat),
    ∀ n ∈ mkBlock L b items, n.label = L
  | [], _ => by simp [mkBlock]
  | (w, ps) :: rest, b => by
    intro n hn
    simp only [mkBlock, List.mem_cons] at hn
    rcases hn with h | h
    · rw [h]
    · exact mkBlock_labels L rest (b + 1) n h

theorem mkBlock_filter_not_mem {α : Type} (idOf : α → Int)
    (itemsOf : α → List (String × GVal)) (L : String) (i : Int) :
    ∀ (rows : List α) (b : Nat), i ∉ rows.map idOf →
    (mkBlock L b (rows.map fun r => (GVal.int (idOf r), itemsOf r))).filter
      (nodeMatches L (GVal.int i)) = []
  | [], _, _ => rfl
  | r :: rest, b, hmem => by
    have hne : ¬ idOf r = i := by
      intro hx
      exact hmem (by simp [hx])
    have ih := mkBlock_filter_not_mem idOf itemsOf L i rest (b + 1)
      (fun hx => hmem (by simp at hx ⊢; exact Or.inr hx))
    simp [mkBlock, List.filter, nodeMatches, hne, ih]

theorem matchNodes_mkBlock_singleton {α : Type} (idOf : α → Int)
    (itemsOf : α → List (String × GVal)) (L : String) (i : Int) :
    ∀ (rows : List α) (b : Nat),
    (rows.map idOf).Nodup → i ∈ rows.map idOf →
    ∃ c : GNode,
      (mkBlock L b (rows.map fun r => (GVal.int (idOf r), itemsOf r))).filter
        (nodeMatches L (GVal.int i)) = [c] ∧
      c.nid = b + idIdx idOf rows i
  | [], _, _, hmem => by simp at hmem
  | r :: rest, b, hnd, hmem => by
    have hnd' : idOf r ∉ rest.map idOf ∧ (rest.map idOf).Nodup := by
      rw [List.map_cons, List.nodup_cons] at hnd
      exact hnd
    by_cases h : idOf r = i
    · refine ⟨⟨b, L, GVal.int (idOf r), itemsOf r⟩, ?_, ?_⟩
      · have hrest : i ∉ rest.map idOf := by
          rw [← h]
          exact hnd'.1
        simp [mkBlock, List.filter, nodeMatches, h,
          mkBlock_filter_not_mem idOf itemsOf L i rest (b + 1) hrest]
      · simp [idIdx, List.findIdx_cons, h]
    · have hmem' : i ∈ rest.map idOf := by
        simp only [List.map_cons, List.mem_cons] at hmem
        rcases hmem with hx | hx
        · exact absurd hx.symm h
        · exact hx
      obtain ⟨c, hfil, hnid⟩ := matchNodes_mkBlock_singleton idOf itemsOf L i rest (b + 1)
        hnd'.2 hmem'
      refine ⟨c, ?_, ?_⟩
      · simp [mkBlock, List.filter, nodeMatches, h, hfil]
      · rw [hnid]
        simp [idIdx, List.findIdx_cons, h]
        omega

theorem mkBlock_mem_of_mem {α : Type} (idOf : α → Int)
    (itemsOf : α → List (String × GVal)) (L : String) (r : α) :
    ∀ (rows : List α) (b : Nat), r ∈ rows →
    ∃ nid, (⟨nid, L, GVal.int (idOf r), itemsOf r⟩ : GNode) ∈
      mkBlock L b (rows.map fun x => (GVal.int (idOf x), itemsOf x))
  | [], _, hr => by simp at hr
  | x :: rest, b, hr => by
    rcases List.mem_cons.mp hr with h | h
    · subst h
      exact ⟨b, by simp [mkBlock]⟩
    · obtain ⟨nid, hn⟩ := mkBlock_mem_of_mem idOf itemsOf L r rest (b + 1) h
      exact ⟨nid, by simp [mkBlock, hn]⟩

theorem runOps_err_some (inj : GOp → Option String) :
    ∀ (ops : List GOp) (st : BodySt) (e : String), st.err = some e →
    runOps inj ops st = st
  | [], _, _, _ => rfl
  | _ :: _, st, e, he => by simp [runOps, he]

theorem runOps_append (inj : GOp → Option String) :
    ∀ (xs ys : List GOp) (st : BodySt),
    runOps inj (xs ++ ys) st = runOps inj ys (runOps inj xs st)
  | [], ys, st => by simp [runOps]
  | x :: xs, ys, st => by
    match he : st.err with
    | some e =>
      rw [runOps_err_some inj (x :: xs ++ ys) st e he,
          runOps_err_some inj (x :: xs) st e he,
          runOps_err_some inj ys st e he]
    | none =>
      simp only [List.cons_append, runOps, he]
      match run_cypher inj st.g x with
      | (.ok g2, _, _) => exact runOps_append inj xs ys _
      | (.error e, _, _) => rw [runOps_err_some inj ys _ e rfl]

theorem runOps_cons_ok (inj : GOp → Option String) (op : GOp) (ops : List GOp)
    (st : BodySt) (g2 : Graph) (he : st.err = none)
    (h : runOp inj st.g op = .ok g2) :
    runOps inj (op :: ops) st =
      runOps inj ops { st with g := g2, sessions := st.sessions + 1 } := by
  simp only [runOps, run_cypher, he, h]

theorem matchNodes_addNodeG_ne (g : Graph) (L L' : String) (v w : GVal)
    (ps : List (String × GVal)) (h : ¬ L' = L) :
    matchNodes (addNodeG g L' v ps) L w = matchNodes g L w := by
  simp [matchNodes, addNodeG, List.filter_append, nodeMatches, h]

theorem matchNodes_addRels (g : Graph) (rs : List GRel) (L : String) (w : GVal) :
    matchNodes (addRels g rs) L w = matchNodes g L w := rfl

/-- The per-entity (id, remaining properties) rows of each block. -/
def catItems (rows : List CategoryRow) : List (GVal × List (String × GVal)) :=
  rows.map fun r => (GVal.int r.id, [("name", GVal.str r.name)])

/-- Product block rows: `price` as a float. -/
def prodItems (rows : List ProductRow) : List (GVal × List (String × GVal)) :=
  rows.map fun r => (GVal.int r.id, [("name", GVal.str r.name), ("price", GVal.float r.price)])

/-- Customer block rows: `join_date` as a Cypher date. -/
def custItems (rows : List CustomerRow) : List (GVal × List (String × GVal)) :=
  rows.map fun r =>
    (GVal.int r.id, [("name", GVal.str r.name), ("join_date", GVal.date r.join_date)])

/-- Order block rows: `timestamp` as a Cypher datetime. -/
def ordItems (rows : List OrderRow) : List (GVal × List (String × GVal)) :=
  rows.map fun r => (GVal.int r.id, [("timestamp", GVal.datetime r.ts)])

/-- One `IN_CATEGORY` relationship per product row, sources numbered from
`b`, targets given by `nidFn`. -/
def prodRelsB (nidFn : ProductRow → Nat) : Nat → List ProductRow → List GRel
  | _, [] => []
  | b, r :: rest => ⟨b, "IN_CATEGORY", [], nidFn r⟩ :: prodRelsB nidFn (b + 1) rest

/-- One `PLACED` relationship per order row. -/
def ordRelsB (nidFn : OrderRow → Nat) : Nat → List OrderRow → List GRel
  | _, [] => []
  | b, r :: rest => ⟨nidFn r, "PLACED", [], b⟩ :: ordRelsB nidFn (b + 1) rest

/-- One `CONTAINS` relationship per order-item row. -/
def itemRelsB (oFn pFn : OrderItemRow → Nat) : List OrderItemRow → List GRel
  | [] => []
  | r :: rest =>
    ⟨oFn r, "CONTAINS", [("quantity", GVal.int r.quantity)], pFn r⟩ :: itemRelsB oFn pFn rest

/-- One `INTERACTED` relationship per event row. -/
def eventRelsB (cFn pFn : EventRow → Nat) : List EventRow → List GRel
  | [] => []
  | r :: rest =>
    ⟨cFn r, "INTERACTED", [("event_type", GVal.str r.event_type),
       ("timestamp", GVal.datetime r.ts)], pFn r⟩ :: eventRelsB cFn pFn rest

/-- The `CONTAINS` relationships one order-item statement creates: one
per (matched order, matched product) pair. -/
def itemRelsGen (oFnL pFnL : OrderItemRow → List GNode) : List OrderItemRow → List GRel
  | [] => []
  | r :: rest =>
    ((oFnL r).flatMap fun o => (pFnL r).map fun p =>
      ⟨o.nid, "CONTAINS", [("quantity", GVal.int r.quantity)], p.nid⟩) ++
    itemRelsGen oFnL pFnL rest

theorem runOps_categories (inj : GOp → Option String) :
    ∀ (rows : List CategoryRow) (st : BodySt), st.err = none →
    (∀ r ∈ rows, inj (.createCategory (.int r.id) (.str r.name)) = none) →
    runOps inj (categoryOps rows) st =
      { g := ⟨st.g.nodes ++ mkBlock "Category" st.g.nextId (catItems rows),
              st.g.rels, st.g.nextId + rows.length⟩,
        err := none, sessions := st.sessions + rows.length, log := st.log }
  | [], st, he, _ => by
    obtain ⟨⟨n, rl, ni⟩, e, sess, lg⟩ := st
    dsimp only at he
    subst he
    simp [categoryOps, runOps, catItems, mkBlock]
  | r :: rest, st, he, hinj => by
    have h0 : inj (GOp.createCategory (.int r.id) (.str r.name)) = none := hinj r (by simp)
    have hop : runOp inj st.g (GOp.createCategory (.int r.id) (.str r.name)) =
        .ok (addNodeG st.g "Category" (.int r.id) [("name", GVal.str r.name)]) := by
      simp [runOp, h0, opSem]
    have hcons : runOps inj (categoryOps (r :: rest)) st =
        runOps inj (categoryOps rest)
          { st with g := addNodeG st.g "Category" (.int r.id) [("name", GVal.str r.name)],
                    sessions := st.sessions + 1 } := by
      simp only [categoryOps, List.map_cons]
      exact runOps_cons_ok inj _ _ st _ he hop
    have ih := runOps_categories inj rest
      { st with g := addNodeG st.g "Category" (.int r.id) [("name", GVal.str r.name)],
                sessions := st.sessions + 1 } he (fun x hx => hinj x (by simp [hx]))
    rw [hcons, ih]
    simp only [addNodeG, catItems, List.map_cons, mkBlock, List.length_cons]
    congr 1
    · congr 1
      · simp [List.append_assoc]
      · omega
    · omega

theorem matchNodes_nodes_eq (g1 g2 : Graph) (L : String) (v : GVal)
    (h : g1.nodes = g2.nodes) : matchNodes g1 L v = matchNodes g2 L v := by
  simp [matchNodes, h]

theorem runOps_products (inj : GOp → Option String) (nidFn : ProductRow → Nat) :
    ∀ (rows : List ProductRow) (st : BodySt), st.err = none →
    (∀ r ∈ rows, inj (.createProduct (.int r.id) (.str r.name) (.float r.price)
      (.int r.category_id)) = none) →
    (∀ r ∈ rows, ∃ c : GNode,
      matchNodes st.g "Category" (.int r.category_id) = [c] ∧ c.nid = nidFn r) →
    runOps inj (productOps rows) st =
      { g := ⟨st.g.nodes ++ mkBlock "Product" st.g.nextId (prodItems rows),
              st.g.rels ++ prodRelsB nidFn st.g.nextId rows,
              st.g.nextId + rows.length⟩,
        err := none, sessions := st.sessions + rows.length, log := st.log }
  | [], st, he, _, _ => by
    obtain ⟨⟨n, rl, ni⟩, e, sess, lg⟩ := st
    dsimp only at he
    subst he
    simp [productOps, runOps, prodItems, prodRelsB, mkBlock]
  | r :: rest, st, he, hinj, hmatch => by
    obtain ⟨c, hc, hcn⟩ := hmatch r (by simp)
    have h0 : inj (GOp.createProduct (.int r.id) (.str r.name) (.float r.price)
        (.int r.category_id)) = none := hinj r (by simp)
    have hop : runOp inj st.g (GOp.createProduct (.int r.id) (.str r.name)
        (.float r.price) (.int r.category_id)) =
        .ok (addRels (addNodeG st.g "Product" (.int r.id)
              [("name", GVal.str r.name), ("price", GVal.float r.price)])
            [⟨st.g.nextId, "IN_CATEGORY", [], c.nid⟩]) := by
      simp [runOp, h0, opSem, hc, createProductLoop]
    have hcons : runOps inj (productOps (r :: rest)) st =
        runOps inj (productOps rest)
          { st with
            g := addRels (addNodeG st.g "Product" (.int r.id) [("name", GVal.str r.name), ("price", GVal.float r.price)]) [⟨st.g.nextId, "IN_CATEGORY", [], c.nid⟩]
            sessions := st.sessions + 1 } := by
      simp only [productOps, List.map_cons]
      exact runOps_cons_ok inj _ _ st _ he hop
    have hpres : ∀ w, matchNodes (addRels (addNodeG st.g "Product" (.int r.id)
        [("name", GVal.str r.name), ("price", GVal.float r.price)])
        [⟨st.g.nextId, "IN_CATEGORY", [], c.nid⟩]) "Category" w =
        matchNodes st.g "Category" w := by
      intro w
      rw [matchNodes_addRels, matchNodes_addNodeG_ne]
      decide
    have ih := runOps_products inj nidFn rest
      { st with
        g := addRels (addNodeG st.g "Product" (.int r.id) [("name", GVal.str r.name), ("price", GVal.float r.price)]) [⟨st.g.nextId, "IN_CATEGORY", [], c.nid⟩]
        sessions := st.sessions + 1 } he
      (fun x hx => hinj x (by simp [hx]))
      (fun x hx => by
        obtain ⟨cx, hcx, hcxn⟩ := hmatch x (by simp [hx])
        exact ⟨cx, by rw [hpres]; exact hcx, hcxn⟩)
    rw [hcons, ih]
    simp only [addRels, addNodeG, prodItems, List.map_cons, mkBlock, prodRelsB,
      List.length_cons, hcn]
    congr 1
    · congr 1
      · simp [List.append_assoc]
      · simp [List.append_assoc]
      · omega
    · omega

theorem runOps_customers (inj : GOp → Option String) :
    ∀ (rows : List CustomerRow) (st : BodySt), st.err = none →
    (∀ r ∈ rows, inj (.createCustomer (.int r.id) (.str r.name)
      (.str (pyStrDate r.join_date))) = none) →
    (∀ r ∈ rows, dateValid r.join_date) →
    runOps inj (customerOps rows) st =
      { g := ⟨st.g.nodes ++ mkBlock "Customer" st.g.nextId (custItems rows),
              st.g.rels, st.g.nextId + rows.length⟩,
        err := none, sessions := st.sessions + rows.length, log := st.log }
  | [], st, he, _, _ => by
    obtain ⟨⟨n, rl, ni⟩, e, sess, lg⟩ := st
    dsimp only at he
    subst he
    simp [customerOps, runOps, custItems, mkBlock]
  | r :: rest, st, he, hinj, hval => by
    have h0 : inj (GOp.createCustomer (.int r.id) (.str r.name)
        (.str (pyStrDate r.join_date))) = none := hinj r (by simp)
    have hdate : cypherDateFn (.str (pyStrDate r.join_date)) = .ok (.date r.join_date) := by
      simp [cypherDateFn, parse_pyStrDate r.join_date (hval r (by simp))]
    have hop : runOp inj st.g (GOp.createCustomer (.int r.id) (.str r.name)
        (.str (pyStrDate r.join_date))) =
        .ok (addNodeG st.g "Customer" (.int r.id)
          [("name", GVal.str r.name), ("join_date", GVal.date r.join_date)]) := by
      simp [runOp, h0, opSem, hdate]
    have hcons : runOps inj (customerOps (r :: rest)) st =
        runOps inj (customerOps rest)
          { st with
            g := addNodeG st.g "Customer" (.int r.id) [("name", GVal.str r.name), ("join_date", GVal.date r.join_date)]
            sessions := st.sessions + 1 } := by
      simp only [customerOps, List.map_cons]
      exact runOps_cons_ok inj _ _ st _ he hop
    have ih := runOps_customers inj rest
      { st with
        g := addNodeG st.g "Customer" (.int r.id) [("name", GVal.str r.name), ("join_date", GVal.date r.join_date)]
        sessions := st.sessions + 1 } he
      (fun x hx => hinj x (by simp [hx])) (fun x hx => hval x (by simp [hx]))
    rw [hcons, ih]
    simp only [addNodeG, custItems, List.map_cons, mkBlock, List.length_cons]
    congr 1
    · congr 1
      · simp [List.append_assoc]
      · omega
    · omega

theorem runOps_orders (inj : GOp → Option String) (ser : DTV → String)
    (nidFn : OrderRow → Nat) :
    ∀ (rows : List OrderRow) (st : BodySt), st.err = none →
    (∀ r ∈ rows, inj (.createOrder (.int r.id) (.int r.customer_id)
      (.str (ser r.ts))) = none) →
    (∀ r ∈ rows, parseCypherDT (ser r.ts) = some r.ts) →
    (∀ r ∈ rows, ∃ c : GNode,
      matchNodes st.g "Customer" (.int r.customer_id) = [c] ∧ c.nid = nidFn r) →
    runOps inj (rows.map fun r => GOp.createOrder (.int r.id) (.int r.customer_id)
      (.str (ser r.ts))) st =
      { g := ⟨st.g.nodes ++ mkBlock "Order" st.g.nextId (ordItems rows),
              st.g.rels ++ ordRelsB nidFn st.g.nextId rows,
              st.g.nextId + rows.length⟩,
        err := none, sessions := st.sessions + rows.length, log := st.log }
  | [], st, he, _, _, _ => by
    obtain ⟨⟨n, rl, ni⟩, e, sess, lg⟩ := st
    dsimp only at he
    subst he
    simp [runOps, ordItems, ordRelsB, mkBlock]
  | r :: rest, st, he, hinj, hts, hmatch => by
    obtain ⟨c, hc, hcn⟩ := hmatch r (by simp)
    have h0 : inj (GOp.createOrder (.int r.id) (.int r.customer_id)
        (.str (ser r.ts))) = none := hinj r (by simp)
    have hdt : cypherDTFn (.str (ser r.ts)) = .ok (.datetime r.ts) := by
      simp [cypherDTFn, hts r (by simp)]
    have hop : runOp inj st.g (GOp.createOrder (.int r.id) (.int r.customer_id)
        (.str (ser r.ts))) =
        .ok (addRels (addNodeG st.g "Order" (.int r.id)
          [("timestamp", GVal.datetime r.ts)]) [⟨c.nid, "PLACED", [], st.g.nextId⟩]) := by
      simp [runOp, h0, opSem, hc, createOrderLoop, hdt]
    have hcons : runOps inj ((r :: rest).map fun x => GOp.createOrder (.int x.id)
        (.int x.customer_id) (.str (ser x.ts))) st =
        runOps inj (rest.map fun x => GOp.createOrder (.int x.id)
          (.int x.customer_id) (.str (ser x.ts)))
          { st with
            g := addRels (addNodeG st.g "Order" (.int r.id) [("timestamp", GVal.datetime r.ts)]) [⟨c.nid, "PLACED", [], st.g.nextId⟩]
            sessions := st.sessions + 1 } := by
      simp only [List.map_cons]
      exact runOps_cons_ok inj _ _ st _ he hop
    have hpres : ∀ w, matchNodes (addRels (addNodeG st.g "Order" (.int r.id)
        [("timestamp", GVal.datetime r.ts)]) [⟨c.nid, "PLACED", [], st.g.nextId⟩])
        "Customer" w = matchNodes st.g "Customer" w := by
      intro w
      rw [matchNodes_addRels, matchNodes_addNodeG_ne]
      decide
    have ih := runOps_orders inj ser nidFn rest
      { st with
        g := addRels (addNodeG st.g "Order" (.int r.id) [("timestamp", GVal.datetime r.ts)]) [⟨c.nid, "PLACED", [], st.g.nextId⟩]
        sessions := st.sessions + 1 } he
      (fun x hx => hinj x (by simp [hx])) (fun x hx => hts x (by simp [hx]))
      (fun x hx => by
        obtain ⟨cx, hcx, hcxn⟩ := hmatch x (by simp [hx])
        exact ⟨cx, by rw [hpres]; exact hcx, hcxn⟩)
    rw [hcons, ih]
    simp only [addRels, addNodeG, ordItems, List.map_cons, mkBlock, ordRelsB,
      List.length_cons, hcn]
    congr 1
    · congr 1
      · simp [List.append_assoc]
      · simp [List.append_assoc]
      · omega
    · omega

theorem createItemLoop_eq (qty : GVal) (ps : List GNode) :
    ∀ (os : List GNode) (g : Graph), createItemLoop qty ps os g =
      ⟨g.nodes, g.rels ++ os.flatMap (fun o => ps.map fun p =>
        ⟨o.nid, "CONTAINS", [("quantity", qty)], p.nid⟩), g.nextId⟩
  | [], g => by
    obtain ⟨n, rl, ni⟩ := g
    simp [createItemLoop]
  | o :: os, g => by
    rw [createItemLoop, createItemLoop_eq qty ps os (addRels g
      (ps.map fun p => ⟨o.nid, "CONTAINS", [("quantity", qty)], p.nid⟩))]
    simp [addRels, List.append_assoc]

theorem runOps_orderItems (inj : GOp → Option String)
    (oFnL pFnL : OrderItemRow → List GNode) :
    ∀ (rows : List OrderItemRow) (st : BodySt), st.err = none →
    (∀ r ∈ rows, inj (.createOrderItem (.int r.order_id) (.int r.product_id)
      (.int r.quantity)) = none) →
    (∀ r ∈ rows, matchNodes st.g "Order" (.int r.order_id) = oFnL r ∧
                 matchNodes st.g "Product" (.int r.product_id) = pFnL r) →
    runOps inj (orderItemOps rows) st =
      { g := ⟨st.g.nodes, st.g.rels ++ itemRelsGen oFnL pFnL rows, st.g.nextId⟩,
        err := none, sessions := st.sessions + rows.length, log := st.log }
  | [], st, he, _, _ => by
    obtain ⟨⟨n, rl, ni⟩, e, sess, lg⟩ := st
    dsimp only at he
    subst he
    simp [orderItemOps, runOps, itemRelsGen]
  | r :: rest, st, he, hinj, hmatch => by
    obtain ⟨ho, hp⟩ := hmatch r (by simp)
    have h0 : inj (GOp.createOrderItem (.int r.order_id) (.int r.product_id)
        (.int r.quantity)) = none := hinj r (by simp)
    have hop : runOp inj st.g (GOp.createOrderItem (.int r.order_id)
        (.int r.product_id) (.int r.quantity)) =
        .ok ⟨st.g.nodes, st.g.rels ++ ((oFnL r).flatMap fun o => (pFnL r).map fun p =>
          ⟨o.nid, "CONTAINS", [("quantity", GVal.int r.quantity)], p.nid⟩), st.g.nextId⟩ := by
      simp [runOp, h0, opSem, ho, hp, createItemLoop_eq]
    have hcons : runOps inj (orderItemOps (r :: rest)) st =
        runOps inj (orderItemOps rest)
          { st with
            g := ⟨st.g.nodes, st.g.rels ++ ((oFnL r).flatMap fun o => (pFnL r).map fun p => ⟨o.nid, "CONTAINS", [("quantity", GVal.int r.quantity)], p.nid⟩), st.g.nextId⟩
            sessions := st.sessions + 1 } := by
      simp only [orderItemOps, List.map_cons]
      exact runOps_cons_ok inj _ _ st _ he hop
    have ih := runOps_orderItems inj oFnL pFnL rest
      { st with
        g := ⟨st.g.nodes, st.g.rels ++ ((oFnL r).flatMap fun o => (pFnL r).map fun p => ⟨o.nid, "CONTAINS", [("quantity", GVal.int r.quantity)], p.nid⟩), st.g.nextId⟩
        sessions := st.sessions + 1 } he
      (fun x hx => hinj x (by simp [hx]))
      (fun x hx => by
        obtain ⟨hxo, hxp⟩ := hmatch x (by simp [hx])
        constructor
        · rw [← hxo]
          exact matchNodes_nodes_eq _ _ _ _ rfl
        · rw [← hxp]
          exact matchNodes_nodes_eq _ _ _ _ rfl)
    rw [hcons, ih]
    simp only [itemRelsGen, List.length_cons]
    congr 1
    · congr 1
      simp [List.append_assoc]
    · omega

theorem runOps_events (inj : GOp → Option String) (ser : DTV → String)
    (cFn pFn : EventRow → Nat) :
    ∀ (rows : List EventRow) (st : BodySt), st.err = none →
    (∀ r ∈ rows, inj (.createEvent (.int r.customer_id) (.int r.product_id)
      (.str r.event_type) (.str (ser r.ts))) = none) →
    (∀ r ∈ rows, parseCypherDT (ser r.ts) = some r.ts) →
    (∀ r ∈ rows, ∃ c : GNode,
      matchNodes st.g "Customer" (.int r.customer_id) = [c] ∧ c.nid = cFn r) →
    (∀ r ∈ rows, ∃ p : GNode,
      matchNodes st.g "Product" (.int r.product_id) = [p] ∧ p.nid = pFn r) →
    runOps inj (rows.map fun r => GOp.createEvent (.int r.customer_id)
      (.int r.product_id) (.str r.event_type) (.str (ser r.ts))) st =
      { g := ⟨st.g.nodes, st.g.rels ++ eventRelsB cFn pFn rows, st.g.nextId⟩,
        err := none, sessions := st.sessions + rows.length, log := st.log }
  | [], st, he, _, _, _, _ => by
    obtain ⟨⟨n, rl, ni⟩, e, sess, lg⟩ := st
    dsimp only at he
    subst he
    simp [runOps, eventRelsB]
  | r :: rest, st, he, hinj, hts, hmc, hmp => by
    obtain ⟨c, hc, hcn⟩ := hmc r (by simp)
    obtain ⟨p, hp, hpn⟩ := hmp r (by simp)
    have h0 : inj (GOp.createEvent (.int r.customer_id) (.int r.product_id)
        (.str r.event_type) (.str (ser r.ts))) = none := hinj r (by simp)
    have hdt : cypherDTFn (.str (ser r.ts)) = .ok (.datetime r.ts) := by
      simp [cypherDTFn, hts r (by simp)]
    have hop : runOp inj st.g (GOp.createEvent (.int r.customer_id)
        (.int r.product_id) (.str r.event_type) (.str (ser r.ts))) =
        .ok (addRels st.g [⟨c.nid, "INTERACTED",
          [("event_type", GVal.str r.event_type), ("timestamp", GVal.datetime r.ts)],
          p.nid⟩]) := by
      simp [runOp, h0, opSem, hc, hp, createEventLoop, createEventInner, hdt]
    have hcons : runOps inj ((r :: rest).map fun x => GOp.createEvent
        (.int x.customer_id) (.int x.product_id) (.str x.event_type)
        (.str (ser x.ts))) st =
        runOps inj (rest.map fun x => GOp.createEvent (.int x.customer_id)
          (.int x.product_id) (.str x.event_type) (.str (ser x.ts)))
          { st with
            g := addRels st.g [⟨c.nid, "INTERACTED", [("event_type", GVal.str r.event_type), ("timestamp", GVal.datetime r.ts)], p.nid⟩]
            sessions := st.sessions + 1 } := by
      simp only [List.map_cons]
      exact runOps_cons_ok inj _ _ st _ he hop
    have ih := runOps_events inj ser cFn pFn rest
      { st with
        g := addRels st.g [⟨c.nid, "INTERACTED", [("event_type", GVal.str r.event_type), ("timestamp", GVal.datetime r.ts)], p.nid⟩]
        sessions := st.sessions + 1 } he
      (fun x hx => hinj x (by simp [hx])) (fun x hx => hts x (by simp [hx]))
      (fun x hx => by
        obtain ⟨cx, hcx, hcxn⟩ := hmc x (by simp [hx])
        exact ⟨cx, by rw [matchNodes_addRels]; exact hcx, hcxn⟩)
      (fun x hx => by
        obtain ⟨px, hpx, hpxn⟩ := hmp x (by simp [hx])
        exact ⟨px, by rw [matchNodes_addRels]; exact hpx, hpxn⟩)
    rw [hcons, ih]
    simp only [addRels, eventRelsB, List.length_cons, hcn, hpn]
    congr 1
    · congr 1
      simp [List.append_assoc]
    · omega

/-- All graph content carries internal ids at least `b`: content created
after the id counter reached `b`. -/
def Fresh (b : Nat) (g : Graph) : Prop :=
  (∀ n ∈ g.nodes, b ≤ n.nid) ∧ (∀ r ∈ g.rels, b ≤ r.src ∧ b ≤ r.dst) ∧ b ≤ g.nextId

theorem fresh_addNodeG (b : Nat) (g : Graph) (L : String) (v : GVal)
    (ps : List (String × GVal)) (h : Fresh b g) : Fresh b (addNodeG g L v ps) := by
  obtain ⟨hn, hr, hi⟩ := h
  refine ⟨fun n hmem => ?_, fun r hmem => hr r hmem, by simp [addNodeG]; omega⟩
  simp only [addNodeG, List.mem_append, List.mem_singleton] at hmem
  rcases hmem with h | h
  · exact hn n h
  · rw [h]
    exact hi

theorem fresh_addRels (b : Nat) (g : Graph) (rs : List GRel) (h : Fresh b g)
    (hrs : ∀ r ∈ rs, b ≤ r.src ∧ b ≤ r.dst) : Fresh b (addRels g rs) := by
  obtain ⟨hn, hr, hi⟩ := h
  refine ⟨hn, fun r hmem => ?_, hi⟩
  simp only [addRels, List.mem_append] at hmem
  rcases hmem with h | h
  · exact hr r h
  · exact hrs r h

theorem matchNodes_mem (g : Graph) (L : String) (v : GVal) (c : GNode)
    (h : c ∈ matchNodes g L v) : c ∈ g.nodes :=
  List.mem_of_mem_filter h

theorem fresh_createProductLoop (b : Nat) (idv name price : GVal) :
    ∀ (cs : List GNode) (g : Graph), Fresh b g → (∀ c ∈ cs, b ≤ c.nid) →
    Fresh b (createProductLoop idv name price cs g)
  | [], _, h, _ => h
  | c :: cs, g, h, hcs => by
    refine fresh_createProductLoop b idv name price cs _ ?_ (fun x hx => hcs x (by simp [hx]))
    refine fresh_addRels _ _ _ (fresh_addNodeG _ _ _ _ _ h) ?_
    intro r hr
    simp only [List.mem_singleton] at hr
    rw [hr]
    exact ⟨h.2.2, hcs c (by simp)⟩

theorem fresh_createOrderLoop (b : Nat) (idv ts : GVal) :
    ∀ (cs : List GNode) (g g2 : Graph), Fresh b g → (∀ c ∈ cs, b ≤ c.nid) →
    createOrderLoop idv ts cs g = .ok g2 → Fresh b g2
  | [], g, g2, h, _, heq => by
    simp only [createOrderLoop] at heq
    cases heq
    exact h
  | c :: cs, g, g2, h, hcs, heq => by
    simp only [createOrderLoop] at heq
    match hdt : cypherDTFn ts with
    | .error e => rw [hdt] at heq; cases heq
    | .ok tv =>
      rw [hdt] at heq
      refine fresh_createOrderLoop b idv ts cs _ g2 ?_
        (fun x hx => hcs x (by simp [hx])) heq
      refine fresh_addRels _ _ _ (fresh_addNodeG _ _ _ _ _ h) ?_
      intro r hr
      simp only [List.mem_singleton] at hr
      rw [hr]
      exact ⟨hcs c (by simp), h.2.2⟩

theorem fresh_createItemLoop (b : Nat) (qty : GVal) (ps : List GNode)
    (hps : ∀ p ∈ ps, b ≤ p.nid) :
    ∀ (os : List GNode) (g : Graph), Fresh b g → (∀ o ∈ os, b ≤ o.nid) →
    Fresh b (createItemLoop qty ps os g)
  | [], _, h, _ => h
  | o :: os, g, h, hos => by
    refine fresh_createItemLoop b qty ps hps os _ ?_ (fun x hx => hos x (by simp [hx]))
    refine fresh_addRels _ _ _ h ?_
    intro r hr
    simp only [List.mem_map] at hr
    obtain ⟨p, hpmem, hpr⟩ := hr
    rw [← hpr]
    exact ⟨hos o (by simp), hps p hpmem⟩

theorem fresh_createEventInner (b : Nat) (c : GNode) (et ts : GVal) (hc : b ≤ c.nid) :
    ∀ (ps : List GNode) (g g2 : Graph), Fresh b g → (∀ p ∈ ps, b ≤ p.nid) →
    createEventInner c et ts ps g = .ok g2 → Fresh b g2
  | [], g, g2, h, _, heq => by
    simp only [createEventInner] at heq
    cases heq
    exact h
  | p :: ps, g, g2, h, hps, heq => by
    simp only [createEventInner] at heq
    match hdt : cypherDTFn ts with
    | .error e => rw [hdt] at heq; cases heq
    | .ok tv =>
      rw [hdt] at heq
      refine fresh_createEventInner b c et ts hc ps _ g2 ?_
        (fun x hx => hps x (by simp [hx])) heq
      refine fresh_addRels _ _ _ h ?_
      intro r hr
      simp only [List.mem_singleton] at hr
      rw [hr]
      exact ⟨hc, hps p (by simp)⟩

theorem fresh_createEventLoop (b : Nat) (et ts : GVal) (ps : List GNode)
    (hps : ∀ p ∈ ps, b ≤ p.nid) :
    ∀ (cs : List GNode) (g g2 : Graph), Fresh b g → (∀ c ∈ cs, b ≤ c.nid) →
    createEventLoop et ts ps cs g = .ok g2 → Fresh b g2
  | [], g, g2, h, _, heq => by
    simp only [createEventLoop] at heq
    cases heq
    exact h
  | c :: cs, g, g2, h, hcs, heq => by
    simp only [createEventLoop] at heq
    match hin : createEventInner c et ts ps g with
    | .error e => rw [hin] at heq; cases heq
    | .ok gm =>
      rw [hin] at heq
      exact fresh_createEventLoop b et ts ps hps cs gm g2
        (fresh_createEventInner b c et ts (hcs c (by simp)) ps g gm h hps hin)
        (fun x hx => hcs x (by simp [hx])) heq

theorem fresh_opSem (b : Nat) (g g2 : Graph) (op : GOp) (h : Fresh b g)
    (heq : opSem g op = .ok g2) : Fresh b g2 := by
  match op with
  | .wipe =>
    simp only [opSem] at heq
    cases heq
    exact ⟨by simp, by simp, h.2.2⟩
  | .createCategory idv name =>
    simp only [opSem] at heq
    cases heq
    exact fresh_addNodeG _ _ _ _ _ h
  | .createProduct idv name price cid =>
    simp only [opSem] at heq
    cases heq
    exact fresh_createProductLoop b idv name price _ g h
      (fun c hc => h.1 c (matchNodes_mem g _ _ c hc))
  | .createCustomer idv name jd =>
    simp only [opSem] at heq
    match hdt : cypherDateFn jd with
    | .error e => rw [hdt] at heq; cases heq
    | .ok dv =>
      rw [hdt] at heq
      cases heq
      exact fresh_addNodeG _ _ _ _ _ h
  | .createOrder idv cid ts =>
    simp only [opSem] at heq
    exact fresh_createOrderLoop b idv ts _ g g2 h
      (fun c hc => h.1 c (matchNodes_mem g _ _ c hc)) heq
  | .createOrderItem oid pid qty =>
    simp only [opSem] at heq
    cases heq
    exact fresh_createItemLoop b qty _ (fun p hp => h.1 p (matchNodes_mem g _ _ p hp))
      _ g h (fun o ho => h.1 o (matchNodes_mem g _ _ o ho))
  | .createEvent cid pid et ts =>
    simp only [opSem] at heq
    exact fresh_createEventLoop b et ts _ (fun p hp => h.1 p (matchNodes_mem g _ _ p hp))
      _ g g2 h (fun c hc => h.1 c (matchNodes_mem g _ _ c hc)) heq

theorem fresh_runOps (b : Nat) (inj : GOp → Option String) :
    ∀ (ops : List GOp) (st : BodySt), Fresh b st.g → Fresh b (runOps inj ops st).g
  | [], _, h => h
  | op :: ops, st, h => by
    match he : st.err with
    | some e => rw [runOps_err_some inj (op :: ops) st e he]; exact h
    | none =>
      simp only [runOps, he, run_cypher]
      match hop : runOp inj st.g op with
      | .ok g2 =>
        exact fresh_runOps b inj ops _ (by
          show Fresh b g2
          match op, hop with
          | o, hop =>
            simp only [runOp] at hop
            match hinj : inj o with
            | some e => rw [hinj] at hop; cases hop
            | none => rw [hinj] at hop; exact fresh_opSem b st.g g2 o h hop)
      | .error e => exact h

theorem fresh_runStage (b : Nat) (inj : GOp → Option String) (pre post : List String)
    (ops : List GOp) (st : BodySt) (h : Fresh b st.g) :
    Fresh b (runStage inj pre post ops st).g := by
  match he : st.err with
  | some e => simp only [runStage, he]; exact h
  | none =>
    simp only [runStage, he]
    have h2 := fresh_runOps b inj ops
      { g := st.g, err := none, sessions := st.sessions, log := st.log ++ pre } h
    match h3 : (runOps inj ops
        { g := st.g, err := none, sessions := st.sessions, log := st.log ++ pre }).err with
    | none => exact h2
    | some e => exact h2

theorem runSchemaStep_g (injStmt : String → Option String) (sf : Option String)
    (st : BodySt) : (runSchemaStep injStmt sf st).g = st.g := by
  match he : st.err with
  | some e => simp [runSchemaStep, he]
  | none =>
    match sf with
    | none => simp [runSchemaStep, he]
    | some content => simp [runSchemaStep, he]

theorem finishSummary_g (db : ShopDB) (st : BodySt) :
    (finishSummary db st).g = st.g := by
  match he : st.err with
  | some e => simp [finishSummary, he]
  | none => simp [finishSummary, he]

theorem runStage_wipe_eval (inj : GOp → Option String) (pre post : List String)
    (g0 : Graph) (hw : inj GOp.wipe = none) :
    runStage inj pre post [GOp.wipe] ⟨g0, none, 0, []⟩ =
      ⟨⟨[], [], g0.nextId⟩, none, 1, pre ++ post⟩ := by
  simp [runStage, runOps, run_cypher, runOp, hw, opSem]

theorem etlBody_fresh (inj : GOp → Option String) (injStmt : String → Option String)
    (sf : Option String) (db : ShopDB) (g0 : Graph) (hw : inj GOp.wipe = none) :
    Fresh g0.nextId (etlBody inj injStmt sf db g0).g := by
  unfold etlBody
  rw [runStage_wipe_eval inj _ _ g0 hw, finishSummary_g]
  apply fresh_runStage
  apply fresh_runStage
  apply fresh_runStage
  apply fresh_runStage
  apply fresh_runStage
  apply fresh_runStage
  rw [runSchemaStep_g]
  exact ⟨by simp, by simp, Nat.le_refl _⟩

theorem etl_fields_of_ready (env : Env) (db : ShopDB) (g0 : Graph)
    (hpg : (wait_for_postgres env.pgProbe 30 2).result = .ok ())
    (hnj : (wait_for_neo4j env.njProbe 30 2).result = .ok ())
    (hc : env.pgConnectOk = true) :
    (etl env db g0).graph = (etlBody env.inj env.injStmt env.schemaFile db g0).g ∧
    (etl env db g0).err = (etlBody env.inj env.injStmt env.schemaFile db g0).err := by
  unfold etl
  rw [hpg, hnj]
  simp [hc]

/-- Well-formedness of the relational source: unique primary keys and
resolving foreign keys (order-item FKs are stated separately where
needed), and serialisable dates. -/
structure DBWellFormed (db : ShopDB) : Prop where
  catIds : (db.categories.map fun r => r.id).Nodup
  prodIds : (db.products.map fun r => r.id).Nodup
  custIds : (db.customers.map fun r => r.id).Nodup
  ordIds : (db.orders.map fun r => r.id).Nodup
  prodFK : ∀ r ∈ db.products, r.category_id ∈ db.categories.map fun c => c.id
  ordFK : ∀ r ∈ db.orders, r.customer_id ∈ db.customers.map fun c => c.id
  eventFKc : ∀ r ∈ db.events, r.customer_id ∈ db.customers.map fun c => c.id
  eventFKp : ∀ r ∈ db.events, r.product_id ∈ db.products.map fun p => p.id
  custDates : ∀ r ∈ db.customers, dateValid r.join_date
  ordTs : ∀ r ∈ db.orders, dtValid r.ts
  eventTs : ∀ r ∈ db.events, dtValid r.ts

/-- Graph node id of the category a product row links to. -/
def catNidFn (db : ShopDB) (b : Nat) (r : ProductRow) : Nat :=
  b + idIdx (fun c => c.id) db.categories r.category_id

/-- Graph node id of the customer an order row links to. -/
def custNidFnO (db : ShopDB) (b : Nat) (r : OrderRow) : Nat :=
  b + db.categories.length + db.products.length +
    idIdx (fun c => c.id) db.customers r.customer_id

/-- Graph node id of the order an order-item row links to. -/
def ordNidFn (db : ShopDB) (b : Nat) (r : OrderItemRow) : Nat :=
  b + db.categories.length + db.products.length + db.customers.length +
    idIdx (fun o => o.id) db.orders r.order_id

/-- Graph node id of the product an order-item row links to. -/
def prodNidFnI (db : ShopDB) (b : Nat) (r : OrderItemRow) : Nat :=
  b + db.categories.length + idIdx (fun p => p.id) db.products r.product_id

/-- Graph node id of the customer an event row links to. -/
def custNidFnE (db : ShopDB) (b : Nat) (r : EventRow) : Nat :=
  b + db.categories.length + db.products.length +
    idIdx (fun c => c.id) db.customers r.customer_id

/-- Graph node id of the product an event row links to. -/
def prodNidFnE (db : ShopDB) (b : Nat) (r : EventRow) : Nat :=
  b + db.categories.length + idIdx (fun p => p.id) db.products r.product_id

/-- Does an order-item row's pair of foreign keys resolve? -/
def itemResolvesB (db : ShopDB) (r : OrderItemRow) : Bool :=
  decide (r.order_id ∈ db.orders.map fun o => o.id) &&
  decide (r.product_id ∈ db.products.map fun p => p.id)

/-- The nodes of `etl`'s projection of the source: the Category, Product,
Customer and Order blocks in stage order, ids numbered from `b`. -/
def projNodes (db : ShopDB) (b : Nat) : List GNode :=
  mkBlock "Category" b (catItems db.categories) ++
  mkBlock "Product" (b + db.categories.length) (prodItems db.products) ++
  mkBlock "Customer" (b + db.categories.length + db.products.length)
    (custItems db.customers) ++
  mkBlock "Order" (b + db.categories.length + db.products.length + db.customers.length)
    (ordItems db.orders)

/-- The relationships of `etl`'s projection: `IN_CATEGORY` per product,
`PLACED` per order, `CONTAINS` per order-item row whose both foreign keys
resolve, `INTERACTED` per event, in stage order. -/
def projRels (db : ShopDB) (b : Nat) : List GRel :=
  prodRelsB (catNidFn db b) (b + db.categories.length) db.products ++
  ordRelsB (custNidFnO db b)
    (b + db.categories.length + db.products.length + db.customers.length) db.orders ++
  itemRelsB (ordNidFn db b) (prodNidFnI db b)
    (db.order_items.filter (itemResolvesB db)) ++
  eventRelsB (custNidFnE db b) (prodNidFnE db b) db.events

theorem matchNodes_catBlock (cats : List CategoryRow) (b : Nat) (i : Int)
    (hnd : (cats.map fun c => c.id).Nodup) (hmem : i ∈ cats.map fun c => c.id) :
    ∃ c : GNode,
      (mkBlock "Category" b (catItems cats)).filter (nodeMatches "Category" (GVal.int i)) =
        [c] ∧ c.nid = b + idIdx (fun c => c.id) cats i := by
  have h := matchNodes_mkBlock_singleton (fun c : CategoryRow => c.id)
    (fun c => [("name", GVal.str c.name)]) "Category" i cats b hnd hmem
  simpa only [catItems] using h

theorem matchNodes_prodBlock (prods : List ProductRow) (b : Nat) (i : Int)
    (hnd : (prods.map fun p => p.id).Nodup) (hmem : i ∈ prods.map fun p => p.id) :
    ∃ c : GNode,
      (mkBlock "Product" b (prodItems prods)).filter (nodeMatches "Product" (GVal.int i)) =
        [c] ∧ c.nid = b + idIdx (fun p => p.id) prods i := by
  have h := matchNodes_mkBlock_singleton (fun p : ProductRow => p.id)
    (fun p => [("name", GVal.str p.name), ("price", GVal.float p.price)]) "Product" i
    prods b hnd hmem
  simpa only [prodItems] using h

theorem matchNodes_custBlock (custs : List CustomerRow) (b : Nat) (i : Int)
    (hnd : (custs.map fun c => c.id).Nodup) (hmem : i ∈ custs.map fun c => c.id) :
    ∃ c : GNode,
      (mkBlock "Customer" b (custItems custs)).filter (nodeMatches "Customer" (GVal.int i)) =
        [c] ∧ c.nid = b + idIdx (fun c => c.id) custs i := by
  have h := matchNodes_mkBlock_singleton (fun c : CustomerRow => c.id)
    (fun c => [("name", GVal.str c.name), ("join_date", GVal.date c.join_date)]) "Customer"
    i custs b hnd hmem
  simpa only [custItems] using h

theorem matchNodes_ordBlock (ords : List OrderRow) (b : Nat) (i : Int)
    (hnd : (ords.map fun o => o.id).Nodup) (hmem : i ∈ ords.map fun o => o.id) :
    ∃ c : GNode,
      (mkBlock "Order" b (ordItems ords)).filter (nodeMatches "Order" (GVal.int i)) =
        [c] ∧ c.nid = b + idIdx (fun o => o.id) ords i := by
  have h := matchNodes_mkBlock_singleton (fun o : OrderRow => o.id)
    (fun o => [("timestamp", GVal.datetime o.ts)]) "Order" i ords b hnd hmem
  simpa only [ordItems] using h

theorem ordBlock_filter_not_mem (ords : List OrderRow) (b : Nat) (i : Int)
    (hmem : i ∉ ords.map fun o => o.id) :
    (mkBlock "Order" b (ordItems ords)).filter (nodeMatches "Order" (GVal.int i)) = [] := by
  have h := mkBlock_filter_not_mem (fun o : OrderRow => o.id)
    (fun o => [("timestamp", GVal.datetime o.ts)]) "Order" i ords b hmem
  simpa only [ordItems] using h

theorem prodBlock_filter_not_mem (prods : List ProductRow) (b : Nat) (i : Int)
    (hmem : i ∉ prods.map fun p => p.id) :
    (mkBlock "Product" b (prodItems prods)).filter (nodeMatches "Product" (GVal.int i)) = [] := by
  have h := mkBlock_filter_not_mem (fun p : ProductRow => p.id)
    (fun p => [("name", GVal.str p.name), ("price", GVal.float p.price)]) "Product" i
    prods b hmem
  simpa only [prodItems] using h

theorem runStage_via (inj : GOp → Option String) (pre post : List String)
    (ops : List GOp) (st : BodySt) (he : st.err = none) (G : Graph) (K : Nat)
    (hrun : runOps inj ops
        { g := st.g, err := none, sessions := st.sessions, log := st.log ++ pre } =
      { g := G, err := none, sessions := st.sessions + K, log := st.log ++ pre }) :
    (runStage inj pre post ops st).g = G ∧ (runStage inj pre post ops st).err = none := by
  simp only [runStage, he]
  rw [hrun]
  exact ⟨rfl, rfl⟩

theorem runSchemaStep_ok (injStmt : String → Option String) (sf : Option String)
    (st : BodySt) (he : st.err = none) (hstmt : ∀ s, injStmt s = none) :
    (runSchemaStep injStmt sf st).err = none := by
  match sf with
  | none => simp [runSchemaStep, he]
  | some content =>
    simp [runSchemaStep, he, run_cypher_file,
      runStmtsFrom_allOk injStmt (splitStatements content).length
        (splitStatements content) 1 (fun s _ => hstmt s)]

theorem finishSummary_err (db : ShopDB) (st : BodySt) :
    (finishSummary db st).err = st.err := by
  cases h : st.err <;> simp [finishSummary, h]

theorem runStage_g_err (inj : GOp → Option String) (pre post : List String)
    (ops : List GOp) (st : BodySt) (F : Graph → Graph) (K : Nat) (he : st.err = none)
    (hrun : ∀ s : BodySt, s.err = none → s.g = st.g →
      runOps inj ops s =
        { g := F s.g, err := none, sessions := s.sessions + K, log := s.log }) :
    (runStage inj pre post ops st).g = F st.g ∧
    (runStage inj pre post ops st).err = none := by
  simp only [runStage, he]
  have h := hrun { g := st.g, err := none, sessions := st.sessions, log := st.log ++ pre }
    rfl rfl
  rw [h]
  exact ⟨rfl, rfl⟩

theorem itemRelsGen_filter (oFnL pFnL : OrderItemRow → List GNode)
    (oFn pFn : OrderItemRow → Nat) (res : OrderItemRow → Bool) :
    ∀ rows : List OrderItemRow,
    (∀ r ∈ rows, if res r then
        (∃ o p, oFnL r = [o] ∧ pFnL r = [p] ∧ o.nid = oFn r ∧ p.nid = pFn r)
      else (oFnL r = [] ∨ pFnL r = [])) →
    itemRelsGen oFnL pFnL rows = itemRelsB oFn pFn (rows.filter res)
  | [], _ => rfl
  | r :: rest, h => by
    have hr := h r (by simp)
    have ih := itemRelsGen_filter oFnL pFnL oFn pFn res rest
      (fun x hx => h x (by simp [hx]))
    match hres : res r with
    | true =>
      rw [hres] at hr
      obtain ⟨o, ho, p, hp, hon, hpn⟩ := by simpa using hr
      simp [itemRelsGen, itemRelsB, List.filter, hres, ho, hp, hon, hpn, ih]
    | false =>
      rw [hres] at hr
      rcases (by simpa using hr : oFnL r = [] ∨ pFnL r = []) with ho | hp
      · simp [itemRelsGen, List.filter, hres, ho, ih]
      · simp [itemRelsGen, List.filter, hres, hp, ih]

theorem etlStages_master (inj : GOp → Option String) (injStmt : String → Option String)
    (sf : Option String) (db : ShopDB) (g0 : Graph)
    (P0 Q0 P1 Q1 P2 Q2 P3 Q3 P4 Q4 P5 Q5 P6 Q6 : List String)
    (hinj : ∀ op, inj op = none) (hstmt : ∀ s, injStmt s = none)
    (hwf : DBWellFormed db) :
    (runStage inj P6 Q6 (eventOpsISO db.events)
      (runStage inj P5 Q5 (orderItemOps db.order_items)
        (runStage inj P4 Q4 (orderOpsISO db.orders)
          (runStage inj P3 Q3 (customerOps db.customers)
            (runStage inj P2 Q2 (productOps db.products)
              (runStage inj P1 Q1 (categoryOps db.categories)
                (runSchemaStep injStmt sf
                  (runStage inj P0 Q0 [GOp.wipe] ⟨g0, none, 0, []⟩)))))))).g =
      ⟨projNodes db g0.nextId, projRels db g0.nextId,
       g0.nextId + db.categories.length + db.products.length + db.customers.length +
         db.orders.length⟩ ∧
    (runStage inj P6 Q6 (eventOpsISO db.events)
      (runStage inj P5 Q5 (orderItemOps db.order_items)
        (runStage inj P4 Q4 (orderOpsISO db.orders)
          (runStage inj P3 Q3 (customerOps db.customers)
            (runStage inj P2 Q2 (productOps db.products)
              (runStage inj P1 Q1 (categoryOps db.categories)
                (runSchemaStep injStmt sf
                  (runStage inj P0 Q0 [GOp.wipe] ⟨g0, none, 0, []⟩)))))))).err = none := by
  rw [runStage_wipe_eval inj P0 Q0 g0 (hinj GOp.wipe)]
  obtain ⟨st2, hst2, h2g, h2e⟩ : ∃ st2,
      runSchemaStep injStmt sf ⟨⟨[], [], g0.nextId⟩, none, 1, P0 ++ Q0⟩ = st2 ∧
      st2.g = ⟨[], [], g0.nextId⟩ ∧ st2.err = none :=
    ⟨_, rfl, runSchemaStep_g injStmt sf _, runSchemaStep_ok injStmt sf _ rfl hstmt⟩
  rw [hst2]
  obtain ⟨st3, hst3, h3g, h3e⟩ : ∃ st3,
      runStage inj P1 Q1 (categoryOps db.categories) st2 = st3 ∧
      st3.g = ⟨mkBlock "Category" g0.nextId (catItems db.categories), [],
               g0.nextId + db.categories.length⟩ ∧ st3.err = none := by
    have h := runStage_g_err inj P1 Q1 (categoryOps db.categories) st2
      (fun g => ⟨g.nodes ++ mkBlock "Category" g.nextId (catItems db.categories), g.rels,
        g.nextId + db.categories.length⟩)
      db.categories.length h2e
      (fun s hse hsg => runOps_categories inj db.categories s hse (fun r _ => hinj _))
    refine ⟨_, rfl, ?_, h.2⟩
    rw [h.1, h2g]
    simp
  rw [hst3]
  obtain ⟨st4, hst4, h4g, h4e⟩ : ∃ st4,
      runStage inj P2 Q2 (productOps db.products) st3 = st4 ∧
      st4.g = ⟨mkBlock "Category" g0.nextId (catItems db.categories) ++
               mkBlock "Product" (g0.nextId + db.categories.length) (prodItems db.products),
               prodRelsB (catNidFn db g0.nextId) (g0.nextId + db.categories.length)
                 db.products,
               g0.nextId + db.categories.length + db.products.length⟩ ∧ st4.err = none := by
    have h := runStage_g_err inj P2 Q2 (productOps db.products) st3
      (fun g => ⟨g.nodes ++ mkBlock "Product" g.nextId (prodItems db.products),
        g.rels ++ prodRelsB (catNidFn db g0.nextId) g.nextId db.products,
        g.nextId + db.products.length⟩)
      db.products.length h3e
      (fun s hse hsg => runOps_products inj (catNidFn db g0.nextId) db.products s hse
        (fun r _ => hinj _)
        (fun r hr => by
          rw [hsg, h3g]
          have hx := matchNodes_catBlock db.categories g0.nextId r.category_id
            hwf.catIds (hwf.prodFK r hr)
          simpa [matchNodes, catNidFn] using hx))
    refine ⟨_, rfl, ?_, h.2⟩
    rw [h.1, h3g]
    simp
  rw [hst4]
  obtain ⟨st5, hst5, h5g, h5e⟩ : ∃ st5,
      runStage inj P3 Q3 (customerOps db.customers) st4 = st5 ∧
      st5.g = ⟨mkBlock "Category" g0.nextId (catItems db.categories) ++
               mkBlock "Product" (g0.nextId + db.categories.length) (prodItems db.products) ++
               mkBlock "Customer" (g0.nextId + db.categories.length + db.products.length)
                 (custItems db.customers),
               prodRelsB (catNidFn db g0.nextId) (g0.nextId + db.categories.length)
                 db.products,
               g0.nextId + db.categories.length + db.products.length +
                 db.customers.length⟩ ∧ st5.err = none := by
    have h := runStage_g_err inj P3 Q3 (customerOps db.customers) st4
      (fun g => ⟨g.nodes ++ mkBlock "Customer" g.nextId (custItems db.customers), g.rels,
        g.nextId + db.customers.length⟩)
      db.customers.length h4e
      (fun s hse hsg => runOps_customers inj db.customers s hse (fun r _ => hinj _)
        hwf.custDates)
    refine ⟨_, rfl, ?_, h.2⟩
    rw [h.1, h4g]
  rw [hst5]
  obtain ⟨st6, hst6, h6g, h6e⟩ : ∃ st6,
      runStage inj P4 Q4 (orderOpsISO db.orders) st5 = st6 ∧
      st6.g = ⟨mkBlock "Category" g0.nextId (catItems db.categories) ++
               mkBlock "Product" (g0.nextId + db.categories.length) (prodItems db.products) ++
               mkBlock "Customer" (g0.nextId + db.categories.length + db.products.length)
                 (custItems db.customers) ++
               mkBlock "Order" (g0.nextId + db.categories.length + db.products.length +
                 db.customers.length) (ordItems db.orders),
               prodRelsB (catNidFn db g0.nextId) (g0.nextId + db.categories.length)
                 db.products ++
               ordRelsB (custNidFnO db g0.nextId) (g0.nextId + db.categories.length +
                 db.products.length + db.customers.length) db.orders,
               g0.nextId + db.categories.length + db.products.length + db.customers.length +
                 db.orders.length⟩ ∧ st6.err = none := by
    have h := runStage_g_err inj P4 Q4 (orderOpsISO db.orders) st5
      (fun g => ⟨g.nodes ++ mkBlock "Order" g.nextId (ordItems db.orders),
        g.rels ++ ordRelsB (custNidFnO db g0.nextId) g.nextId db.orders,
        g.nextId + db.orders.length⟩)
      db.orders.length h5e
      (fun s hse hsg => by
        have hx := runOps_orders inj isoDT (custNidFnO db g0.nextId) db.orders s hse
          (fun r _ => hinj _)
          (fun r hr => parse_isoDT r.ts (hwf.ordTs r hr))
          (fun r hr => by
            rw [hsg, h5g]
            obtain ⟨c, hc, hcn⟩ := matchNodes_custBlock db.customers
              (g0.nextId + db.categories.length + db.products.length) r.customer_id
              hwf.custIds (hwf.ordFK r hr)
            refine ⟨c, ?_, ?_⟩
            · simp [matchNodes, List.filter_append, hc,
                mkBlock_filter_ne_label "Category" "Customer" _ (by decide),
                mkBlock_filter_ne_label "Product" "Customer" _ (by decide)]
            · rw [hcn]
              rfl)
        simpa only [orderOpsISO] using hx)
    refine ⟨_, rfl, ?_, h.2⟩
    rw [h.1, h5g]
  rw [hst6]
  obtain ⟨st7, hst7, h7g, h7e⟩ : ∃ st7,
      runStage inj P5 Q5 (orderItemOps db.order_items) st6 = st7 ∧
      st7.g = ⟨st6.g.nodes,
               st6.g.rels ++ itemRelsB (ordNidFn db g0.nextId) (prodNidFnI db g0.nextId)
                 (db.order_items.filter (itemResolvesB db)),
               st6.g.nextId⟩ ∧ st7.err = none := by
    have h := runStage_g_err inj P5 Q5 (orderItemOps db.order_items) st6
      (fun g => ⟨g.nodes,
        g.rels ++ itemRelsGen
          (fun r => matchNodes st6.g "Order" (GVal.int r.order_id))
          (fun r => matchNodes st6.g "Product" (GVal.int r.product_id)) db.order_items,
        g.nextId⟩)
      db.order_items.length h6e
      (fun s hse hsg => runOps_orderItems inj
        (fun r => matchNodes st6.g "Order" (GVal.int r.order_id))
        (fun r => matchNodes st6.g "Product" (GVal.int r.product_id)) db.order_items s hse
        (fun r _ => hinj _)
        (fun r hr => by rw [hsg]; exact ⟨rfl, rfl⟩))
    have hgen : itemRelsGen
        (fun r => matchNodes st6.g "Order" (GVal.int r.order_id))
        (fun r => matchNodes st6.g "Product" (GVal.int r.product_id)) db.order_items =
        itemRelsB (ordNidFn db g0.nextId) (prodNidFnI db g0.nextId)
          (db.order_items.filter (itemResolvesB db)) := by
      apply itemRelsGen_filter
      intro r _
      match hres : itemResolvesB db r with
      | true =>
        have hro : r.order_id ∈ db.orders.map fun o => o.id := by
          have := hres
          simp only [itemResolvesB, Bool.and_eq_true, decide_eq_true_eq] at this
          exact this.1
        have hrp : r.product_id ∈ db.products.map fun p => p.id := by
          have := hres
          simp only [itemResolvesB, Bool.and_eq_true, decide_eq_true_eq] at this
          exact this.2
        obtain ⟨o, ho, hon⟩ := matchNodes_ordBlock db.orders
          (g0.nextId + db.categories.length + db.products.length + db.customers.length)
          r.order_id hwf.ordIds hro
        obtain ⟨p, hp, hpn⟩ := matchNodes_prodBlock db.products
          (g0.nextId + db.categories.length) r.product_id hwf.prodIds hrp
        rw [if_pos rfl]
        refine ⟨o, p, ?_, ?_, by rw [hon]; rfl, by rw [hpn]; rfl⟩
        · rw [h6g]
          simp [matchNodes, List.filter_append, ho,
            mkBlock_filter_ne_label "Category" "Order" _ (by decide),
            mkBlock_filter_ne_label "Product" "Order" _ (by decide),
            mkBlock_filter_ne_label "Customer" "Order" _ (by decide)]
        · rw [h6g]
          simp [matchNodes, List.filter_append, hp,
            mkBlock_filter_ne_label "Category" "Product" _ (by decide),
            mkBlock_filter_ne_label "Customer" "Product" _ (by decide),
            mkBlock_filter_ne_label "Order" "Product" _ (by decide)]
      | false =>
        have : ¬ (r.order_id ∈ db.orders.map fun o => o.id) ∨
            ¬ (r.product_id ∈ db.products.map fun p => p.id) := by
          have := hres
          simp only [itemResolvesB, Bool.and_eq_false_iff, decide_eq_false_iff_not] at this
          rcases this with h1 | h1
          · exact Or.inl h1
          · exact Or.inr h1
        rw [if_neg (by simp)]
        rcases this with h1 | h1
        · left
          rw [h6g]
          simp [matchNodes, List.filter_append,
            ordBlock_filter_not_mem db.orders _ _ h1,
            mkBlock_filter_ne_label "Category" "Order" _ (by decide),
            mkBlock_filter_ne_label "Product" "Order" _ (by decide),
            mkBlock_filter_ne_label "Customer" "Order" _ (by decide)]
        · right
          rw [h6g]
          simp [matchNodes, List.filter_append,
            prodBlock_filter_not_mem db.products _ _ h1,
            mkBlock_filter_ne_label "Category" "Product" _ (by decide),
            mkBlock_filter_ne_label "Customer" "Product" _ (by decide),
            mkBlock_filter_ne_label "Order" "Product" _ (by decide)]
    refine ⟨_, rfl, ?_, h.2⟩
    rw [h.1, hgen]
  rw [hst7]
  obtain ⟨st8, hst8, h8g, h8e⟩ : ∃ st8,
      runStage inj P6 Q6 (eventOpsISO db.events) st7 = st8 ∧
      st8.g = ⟨st7.g.nodes,
               st7.g.rels ++ eventRelsB (custNidFnE db g0.nextId) (prodNidFnE db g0.nextId)
                 db.events,
               st7.g.nextId⟩ ∧ st8.err = none := by
    have h := runStage_g_err inj P6 Q6 (eventOpsISO db.events) st7
      (fun g => ⟨g.nodes,
        g.rels ++ eventRelsB (custNidFnE db g0.nextId) (prodNidFnE db g0.nextId) db.events,
        g.nextId⟩)
      db.events.length h7e
      (fun s hse hsg => by
        have hx := runOps_events inj isoDT (custNidFnE db g0.nextId)
          (prodNidFnE db g0.nextId) db.events s hse
          (fun r _ => hinj _)
          (fun r hr => parse_isoDT r.ts (hwf.eventTs r hr))
          (fun r hr => by
            rw [hsg, h7g, h6g]
            obtain ⟨c, hc, hcn⟩ := matchNodes_custBlock db.customers
              (g0.nextId + db.categories.length + db.products.length) r.customer_id
              hwf.custIds (hwf.eventFKc r hr)
            refine ⟨c, ?_, ?_⟩
            · simp [matchNodes, List.filter_append, hc,
                mkBlock_filter_ne_label "Category" "Customer" _ (by decide),
                mkBlock_filter_ne_label "Product" "Customer" _ (by decide),
                mkBlock_filter_ne_label "Order" "Customer" _ (by decide)]
            · rw [hcn]
              rfl)
          (fun r hr => by
            rw [hsg, h7g, h6g]
            obtain ⟨p, hp, hpn⟩ := matchNodes_prodBlock db.products
              (g0.nextId + db.categories.length) r.product_id hwf.prodIds
              (hwf.eventFKp r hr)
            refine ⟨p, ?_, ?_⟩
            · simp [matchNodes, List.filter_append, hp,
                mkBlock_filter_ne_label "Category" "Product" _ (by decide),
                mkBlock_filter_ne_label "Customer" "Product" _ (by decide),
                mkBlock_filter_ne_label "Order" "Product" _ (by decide)]
            · rw [hpn]
              rfl)
        simpa only [eventOpsISO] using hx)
    refine ⟨_, rfl, ?_, h.2⟩
    rw [h.1]
  rw [hst8]
  refine ⟨?_, h8e⟩
  rw [h8g, h7g, h6g]
  simp only [projNodes, projRels]

theorem etlBody_master (inj : GOp → Option String) (injStmt : String → Option String)
    (sf : Option String) (db : ShopDB) (g0 : Graph)
    (hinj : ∀ op, inj op = none) (hstmt : ∀ s, injStmt s = none)
    (hwf : DBWellFormed db) :
    (etlBody inj injStmt sf db g0).g =
      ⟨projNodes db g0.nextId, projRels db g0.nextId,
       g0.nextId + db.categories.length + db.products.length + db.customers.length +
         db.orders.length⟩ ∧
    (etlBody inj injStmt sf db g0).err = none := by
  unfold etlBody
  rw [finishSummary_g, finishSummary_err]
  exact etlStages_master inj injStmt sf db g0 _ _ _ _ _ _ _ _ _ _ _ _ _ _ hinj hstmt hwf

theorem etl_master (env : Env) (db : ShopDB) (g0 : Graph)
    (hpg : (wait_for_postgres env.pgProbe 30 2).result = .ok ())
    (hnj : (wait_for_neo4j env.njProbe 30 2).result = .ok ())
    (hconn : env.pgConnectOk = true)
    (hinj : ∀ op, env.inj op = none) (hstmt : ∀ s, env.injStmt s = none)
    (hwf : DBWellFormed db) :
    (etl env db g0).graph =
      ⟨projNodes db g0.nextId, projRels db g0.nextId,
       g0.nextId + db.categories.length + db.products.length + db.customers.length +
         db.orders.length⟩ ∧
    (etl env db g0).err = none := by
  obtain ⟨hg, he⟩ := etl_fields_of_ready env db g0 hpg hnj hconn
  obtain ⟨hg2, he2⟩ := etlBody_master env.inj env.injStmt env.schemaFile db g0 hinj hstmt hwf
  exact ⟨by rw [hg, hg2], by rw [he, he2]⟩

/-- Graph node id, in a `migrate_to_neo4j` run, of the category a product
links to. -/
def catNidFnM (db : ShopDB) (b : Nat) (r : ProductRow) : Nat :=
  b + db.customers.length + idIdx (fun c => c.id) db.categories r.category_id

/-- Graph node id, in a `migrate_to_neo4j` run, of the customer an order
links to. -/
def custNidFnOM (db : ShopDB) (b : Nat) (r : OrderRow) : Nat :=
  b + idIdx (fun c => c.id) db.customers r.customer_id

/-- Graph node id, in a `migrate_to_neo4j` run, of the order an order-item
links to. -/
def ordNidFnM (db : ShopDB) (b : Nat) (r : OrderItemRow) : Nat :=
  b + db.customers.length + db.categories.length + db.products.length +
    idIdx (fun o => o.id) db.orders r.order_id

/-- Graph node id, in a `migrate_to_neo4j` run, of the product an
order-item links to. -/
def prodNidFnIM (db : ShopDB) (b : Nat) (r : OrderItemRow) : Nat :=
  b + db.customers.length + db.categories.length +
    idIdx (fun p => p.id) db.products r.product_id

/-- Graph node id, in a `migrate_to_neo4j` run, of the customer an event
links to. -/
def custNidFnEM (db : ShopDB) (b : Nat) (r : EventRow) : Nat :=
  b + idIdx (fun c => c.id) db.customers r.customer_id

/-- Graph node id, in a `migrate_to_neo4j` run, of the product an event
links to. -/
def prodNidFnEM (db : ShopDB) (b : Nat) (r : EventRow) : Nat :=
  b + db.customers.length + db.categories.length +
    idIdx (fun p => p.id) db.products r.product_id

/-- The nodes a `migrate_to_neo4j` run creates: the Customer block FIRST,
then Categories, Products, Orders — the endpoint's stage order. -/
def projNodesM (db : ShopDB) (b : Nat) : List GNode :=
  mkBlock "Customer" b (custItems db.customers) ++
  mkBlock "Category" (b + db.customers.length) (catItems db.categories) ++
  mkBlock "Product" (b + db.customers.length + db.categories.length)
    (prodItems db.products) ++
  mkBlock "Order" (b + db.customers.length + db.categories.length + db.products.length)
    (ordItems db.orders)

/-- The relationships a `migrate_to_neo4j` run creates. -/
def projRelsM (db : ShopDB) (b : Nat) : List GRel :=
  prodRelsB (catNidFnM db b) (b + db.customers.length + db.categories.length)
    db.products ++
  ordRelsB (custNidFnOM db b)
    (b + db.customers.length + db.categories.length + db.products.length) db.orders ++
  itemRelsB (ordNidFnM db b) (prodNidFnIM db b)
    (db.order_items.filter (itemResolvesB db)) ++
  eventRelsB (custNidFnEM db b) (prodNidFnEM db b) db.events

theorem migrate_master (inj : GOp → Option String) (db : ShopDB) (g0 : Graph)
    (hinj : ∀ op, inj op = none) (hwf : DBWellFormed db) :
    (migrate_to_neo4j inj db g0).graph =
      ⟨projNodesM db g0.nextId, projRelsM db g0.nextId,
       g0.nextId + db.customers.length + db.categories.length + db.products.length +
         db.orders.length⟩ ∧
    (migrate_to_neo4j inj db g0).retVal =
      .ok [("status", "success"), ("message", "Data migrated to Neo4j")] := by
  unfold migrate_to_neo4j
  rw [runOps_append, runOps_append, runOps_append, runOps_append, runOps_append,
    runOps_append]
  have h1 : runOps inj [GOp.wipe] ⟨g0, none, 0, []⟩ =
      ⟨⟨[], [], g0.nextId⟩, none, 1, []⟩ := by
    simp [runOps, run_cypher, runOp, hinj, opSem]
  rw [h1]
  have h2 : runOps inj (customerOps db.customers) ⟨⟨[], [], g0.nextId⟩, none, 1, []⟩ =
      ⟨⟨mkBlock "Customer" g0.nextId (custItems db.customers), [],
        g0.nextId + db.customers.length⟩, none, 1 + db.customers.length, []⟩ := by
    rw [runOps_customers inj db.customers _ rfl (fun r _ => hinj _) hwf.custDates]
    try rfl
  rw [h2]
  have h3 : runOps inj (categoryOps db.categories)
      ⟨⟨mkBlock "Customer" g0.nextId (custItems db.customers), [],
        g0.nextId + db.customers.length⟩, none, 1 + db.customers.length, []⟩ =
      ⟨⟨mkBlock "Customer" g0.nextId (custItems db.customers) ++
        mkBlock "Category" (g0.nextId + db.customers.length) (catItems db.categories), [],
        g0.nextId + db.customers.length + db.categories.length⟩, none,
       1 + db.customers.length + db.categories.length, []⟩ := by
    rw [runOps_categories inj db.categories _ rfl (fun r _ => hinj _)]
    try rfl
  rw [h3]
  have h4 : runOps inj (productOps db.products)
      ⟨⟨mkBlock "Customer" g0.nextId (custItems db.customers) ++
        mkBlock "Category" (g0.nextId + db.customers.length) (catItems db.categories), [],
        g0.nextId + db.customers.length + db.categories.length⟩, none,
       1 + db.customers.length + db.categories.length, []⟩ =
      ⟨⟨mkBlock "Customer" g0.nextId (custItems db.customers) ++
        mkBlock "Category" (g0.nextId + db.customers.length) (catItems db.categories) ++
        mkBlock "Product" (g0.nextId + db.customers.length + db.categories.length)
          (prodItems db.products),
        prodRelsB (catNidFnM db g0.nextId)
          (g0.nextId + db.customers.length + db.categories.length) db.products,
        g0.nextId + db.customers.length + db.categories.length + db.products.length⟩, none,
       1 + db.customers.length + db.categories.length + db.products.length, []⟩ := by
    rw [runOps_products inj (catNidFnM db g0.nextId) db.products _ rfl (fun r _ => hinj _)
      (fun r hr => by
        obtain ⟨c, hc, hcn⟩ := matchNodes_catBlock db.categories
          (g0.nextId + db.customers.length) r.category_id hwf.catIds (hwf.prodFK r hr)
        refine ⟨c, ?_, ?_⟩
        · simp [matchNodes, List.filter_append, hc,
            mkBlock_filter_ne_label "Customer" "Category" _ (by decide)]
        · rw [hcn]
          rfl)]
    simp
  rw [h4]
  have h5 : runOps inj (orderOpsPy db.orders)
      ⟨⟨mkBlock "Customer" g0.nextId (custItems db.customers) ++
        mkBlock "Category" (g0.nextId + db.customers.length) (catItems db.categories) ++
        mkBlock "Product" (g0.nextId + db.customers.length + db.categories.length)
          (prodItems db.products),
        prodRelsB (catNidFnM db g0.nextId)
          (g0.nextId + db.customers.length + db.categories.length) db.products,
        g0.nextId + db.customers.length + db.categories.length + db.products.length⟩, none,
       1 + db.customers.length + db.categories.length + db.products.length, []⟩ =
      ⟨⟨mkBlock "Customer" g0.nextId (custItems db.customers) ++
        mkBlock "Category" (g0.nextId + db.customers.length) (catItems db.categories) ++
        mkBlock "Product" (g0.nextId + db.customers.length + db.categories.length)
          (prodItems db.products) ++
        mkBlock "Order" (g0.nextId + db.customers.length + db.categories.length +
          db.products.length) (ordItems db.orders),
        prodRelsB (catNidFnM db g0.nextId)
          (g0.nextId + db.customers.length + db.categories.length) db.products ++
        ordRelsB (custNidFnOM db g0.nextId) (g0.nextId + db.customers.length +
          db.categories.length + db.products.length) db.orders,
        g0.nextId + db.customers.length + db.categories.length + db.products.length +
          db.orders.length⟩, none,
       1 + db.customers.length + db.categories.length + db.products.length +
         db.orders.length, []⟩ := by
    have hx := runOps_orders inj pyStrDT (custNidFnOM db g0.nextId) db.orders
      ⟨⟨mkBlock "Customer" g0.nextId (custItems db.customers) ++
        mkBlock "Category" (g0.nextId + db.customers.length) (catItems db.categories) ++
        mkBlock "Product" (g0.nextId + db.customers.length + db.categories.length)
          (prodItems db.products),
        prodRelsB (catNidFnM db g0.nextId)
          (g0.nextId + db.customers.length + db.categories.length) db.products,
        g0.nextId + db.customers.length + db.categories.length + db.products.length⟩, none,
       1 + db.customers.length + db.categories.length + db.products.length, []⟩ rfl
      (fun r _ => hinj _) (fun r hr => parse_pyStrDT r.ts (hwf.ordTs r hr))
      (fun r hr => by
        obtain ⟨c, hc, hcn⟩ := matchNodes_custBlock db.customers g0.nextId r.customer_id
          hwf.custIds (hwf.ordFK r hr)
        refine ⟨c, ?_, ?_⟩
        · simp [matchNodes, List.filter_append, hc,
            mkBlock_filter_ne_label "Category" "Customer" _ (by decide),
            mkBlock_filter_ne_label "Product" "Customer" _ (by decide)]
        · rw [hcn]
          rfl)
    simpa only [orderOpsPy] using hx
  rw [h5]
  have h6 : runOps inj (orderItemOps db.order_items)
      ⟨⟨mkBlock "Customer" g0.nextId (custItems db.customers) ++
        mkBlock "Category" (g0.nextId + db.customers.length) (catItems db.categories) ++
        mkBlock "Product" (g0.nextId + db.customers.length + db.categories.length)
          (prodItems db.products) ++
        mkBlock "Order" (g0.nextId + db.customers.length + db.categories.length +
          db.products.length) (ordItems db.orders),
        prodRelsB (catNidFnM db g0.nextId)
          (g0.nextId + db.customers.length + db.categories.length) db.products ++
        ordRelsB (custNidFnOM db g0.nextId) (g0.nextId + db.customers.length +
          db.categories.length + db.products.length) db.orders,
        g0.nextId + db.customers.length + db.categories.length + db.products.length +
          db.orders.length⟩, none,
       1 + db.customers.length + db.categories.length + db.products.length +
         db.orders.length, []⟩ =
      ⟨⟨mkBlock "Customer" g0.nextId (custItems db.customers) ++
        mkBlock "Category" (g0.nextId + db.customers.length) (catItems db.categories) ++
        mkBlock "Product" (g0.nextId + db.customers.length + db.categories.length)
          (prodItems db.products) ++
        mkBlock "Order" (g0.nextId + db.customers.length + db.categories.length +
          db.products.length) (ordItems db.orders),
        (prodRelsB (catNidFnM db g0.nextId)
          (g0.nextId + db.customers.length + db.categories.length) db.products ++
        ordRelsB (custNidFnOM db g0.nextId) (g0.nextId + db.customers.length +
          db.categories.length + db.products.length) db.orders) ++
        itemRelsB (ordNidFnM db g0.nextId) (prodNidFnIM db g0.nextId)
          (db.order_items.filter (itemResolvesB db)),
        g0.nextId + db.customers.length + db.categories.length + db.products.length +
          db.orders.length⟩, none,
       1 + db.customers.length + db.categories.length + db.products.length +
         db.orders.length + db.order_items.length, []⟩ := by
    have hx := runOps_orderItems inj
      (fun r => matchNodes ⟨mkBlock "Customer" g0.nextId (custItems db.customers) ++
        mkBlock "Category" (g0.nextId + db.customers.length) (catItems db.categories) ++
        mkBlock "Product" (g0.nextId + db.customers.length + db.categories.length)
          (prodItems db.products) ++
        mkBlock "Order" (g0.nextId + db.customers.length + db.categories.length +
          db.products.length) (ordItems db.orders), [], 0⟩ "Order" (GVal.int r.order_id))
      (fun r => matchNodes ⟨mkBlock "Customer" g0.nextId (custItems db.customers) ++
        mkBlock "Category" (g0.nextId + db.customers.length) (catItems db.categories) ++
        mkBlock "Product" (g0.nextId + db.customers.length + db.categories.length)
          (prodItems db.products) ++
        mkBlock "Order" (g0.nextId + db.customers.length + db.categories.length +
          db.products.length) (ordItems db.orders), [], 0⟩ "Product" (GVal.int r.product_id))
      db.order_items
      ⟨⟨mkBlock "Customer" g0.nextId (custItems db.customers) ++
        mkBlock "Category" (g0.nextId + db.customers.length) (catItems db.categories) ++
        mkBlock "Product" (g0.nextId + db.customers.length + db.categories.length)
          (prodItems db.products) ++
        mkBlock "Order" (g0.nextId + db.customers.length + db.categories.length +
          db.products.length) (ordItems db.orders),
        prodRelsB (catNidFnM db g0.nextId)
          (g0.nextId + db.customers.length + db.categories.length) db.products ++
        ordRelsB (custNidFnOM db g0.nextId) (g0.nextId + db.customers.length +
          db.categories.length + db.products.length) db.orders,
        g0.nextId + db.customers.length + db.categories.length + db.products.length +
          db.orders.length⟩, none,
       1 + db.customers.length + db.categories.length + db.products.length +
         db.orders.length, []⟩ rfl
      (fun r _ => hinj _)
      (fun r hr => ⟨matchNodes_nodes_eq _ _ _ _ rfl, matchNodes_nodes_eq _ _ _ _ rfl⟩)
    rw [hx]
    have hgen : itemRelsGen
        (fun r => matchNodes ⟨mkBlock "Customer" g0.nextId (custItems db.customers) ++
          mkBlock "Category" (g0.nextId + db.customers.length) (catItems db.categories) ++
          mkBlock "Product" (g0.nextId + db.customers.length + db.categories.length)
            (prodItems db.products) ++
          mkBlock "Order" (g0.nextId + db.customers.length + db.categories.length +
            db.products.length) (ordItems db.orders), [], 0⟩ "Order" (GVal.int r.order_id))
        (fun r => matchNodes ⟨mkBlock "Customer" g0.nextId (custItems db.customers) ++
          mkBlock "Category" (g0.nextId + db.customers.length) (catItems db.categories) ++
          mkBlock "Product" (g0.nextId + db.customers.length + db.categories.length)
            (prodItems db.products) ++
          mkBlock "Order" (g0.nextId + db.customers.length + db.categories.length +
            db.products.length) (ordItems db.orders), [], 0⟩ "Product"
          (GVal.int r.product_id))
        db.order_items =
        itemRelsB (ordNidFnM db g0.nextId) (prodNidFnIM db g0.nextId)
          (db.order_items.filter (itemResolvesB db)) := by
      apply itemRelsGen_filter
      intro r _
      match hres : itemResolvesB db r with
      | true =>
        have hres' := hres
        simp only [itemResolvesB, Bool.and_eq_true, decide_eq_true_eq] at hres'
        obtain ⟨o, ho, hon⟩ := matchNodes_ordBlock db.orders
          (g0.nextId + db.customers.length + db.categories.length + db.products.length)
          r.order_id hwf.ordIds hres'.1
        obtain ⟨p, hp, hpn⟩ := matchNodes_prodBlock db.products
          (g0.nextId + db.customers.length + db.categories.length) r.product_id
          hwf.prodIds hres'.2
        rw [if_pos rfl]
        refine ⟨o, p, ?_, ?_, by rw [hon]; rfl, by rw [hpn]; rfl⟩
        · simp [matchNodes, List.filter_append, ho,
            mkBlock_filter_ne_label "Customer" "Order" _ (by decide),
            mkBlock_filter_ne_label "Category" "Order" _ (by decide),
            mkBlock_filter_ne_label "Product" "Order" _ (by decide)]
        · simp [matchNodes, List.filter_append, hp,
            mkBlock_filter_ne_label "Customer" "Product" _ (by decide),
            mkBlock_filter_ne_label "Category" "Product" _ (by decide),
            mkBlock_filter_ne_label "Order" "Product" _ (by decide)]
      | false =>
        have hres' := hres
        simp only [itemResolvesB, Bool.and_eq_false_iff, decide_eq_false_iff_not] at hres'
        rw [if_neg (by simp)]
        rcases hres' with h1 | h1
        · left
          simp [matchNodes, List.filter_append,
            ordBlock_filter_not_mem db.orders _ _ h1,
            mkBlock_filter_ne_label "Customer" "Order" _ (by decide),
            mkBlock_filter_ne_label "Category" "Order" _ (by decide),
            mkBlock_filter_ne_label "Product" "Order" _ (by decide)]
        · right
          simp [matchNodes, List.filter_append,
            prodBlock_filter_not_mem db.products _ _ h1,
            mkBlock_filter_ne_label "Customer" "Product" _ (by decide),
            mkBlock_filter_ne_label "Category" "Product" _ (by decide),
            mkBlock_filter_ne_label "Order" "Product" _ (by decide)]
    rw [hgen]
  rw [h6]
  have h7 : runOps inj (eventOpsPy db.events)
      ⟨⟨mkBlock "Customer" g0.nextId (custItems db.customers) ++
        mkBlock "Category" (g0.nextId + db.customers.length) (catItems db.categories) ++
        mkBlock "Product" (g0.nextId + db.customers.length + db.categories.length)
          (prodItems db.products) ++
        mkBlock "Order" (g0.nextId + db.customers.length + db.categories.length +
          db.products.length) (ordItems db.orders),
        (prodRelsB (catNidFnM db g0.nextId)
          (g0.nextId + db.customers.length + db.categories.length) db.products ++
        ordRelsB (custNidFnOM db g0.nextId) (g0.nextId + db.customers.length +
          db.categories.length + db.products.length) db.orders) ++
        itemRelsB (ordNidFnM db g0.nextId) (prodNidFnIM db g0.nextId)
          (db.order_items.filter (itemResolvesB db)),
        g0.nextId + db.customers.length + db.categories.length + db.products.length +
          db.orders.length⟩, none,
       1 + db.customers.length + db.categories.length + db.products.length +
         db.orders.length + db.order_items.length, []⟩ =
      ⟨⟨mkBlock "Customer" g0.nextId (custItems db.customers) ++
        mkBlock "Category" (g0.nextId + db.customers.length) (catItems db.categories) ++
        mkBlock "Product" (g0.nextId + db.customers.length + db.categories.length)
          (prodItems db.products) ++
        mkBlock "Order" (g0.nextId + db.customers.length + db.categories.length +
          db.products.length) (ordItems db.orders),
        ((prodRelsB (catNidFnM db g0.nextId)
          (g0.nextId + db.customers.length + db.categories.length) db.products ++
        ordRelsB (custNidFnOM db g0.nextId) (g0.nextId + db.customers.length +
          db.categories.length + db.products.length) db.orders) ++
        itemRelsB (ordNidFnM db g0.nextId) (prodNidFnIM db g0.nextId)
          (db.order_items.filter (itemResolvesB db))) ++
        eventRelsB (custNidFnEM db g0.nextId) (prodNidFnEM db g0.nextId) db.events,
        g0.nextId + db.customers.length + db.categories.length + db.products.length +
          db.orders.length⟩, none,
       1 + db.customers.length + db.categories.length + db.products.length +
         db.orders.length + db.order_items.length + db.events.length, []⟩ := by
    have hx := runOps_events inj pyStrDT (custNidFnEM db g0.nextId)
      (prodNidFnEM db g0.nextId) db.events
      ⟨⟨mkBlock "Customer" g0.nextId (custItems db.customers) ++
        mkBlock "Category" (g0.nextId + db.customers.length) (catItems db.categories) ++
        mkBlock "Product" (g0.nextId + db.customers.length + db.categories.length)
          (prodItems db.products) ++
        mkBlock "Order" (g0.nextId + db.customers.length + db.categories.length +
          db.products.length) (ordItems db.orders),
        (prodRelsB (catNidFnM db g0.nextId)
          (g0.nextId + db.customers.length + db.categories.length) db.products ++
        ordRelsB (custNidFnOM db g0.nextId) (g0.nextId + db.customers.length +
          db.categories.length + db.products.length) db.orders) ++
        itemRelsB (ordNidFnM db g0.nextId) (prodNidFnIM db g0.nextId)
          (db.order_items.filter (itemResolvesB db)),
        g0.nextId + db.customers.length + db.categories.length + db.products.length +
          db.orders.length⟩, none,
       1 + db.customers.length + db.categories.length + db.products.length +
         db.orders.length + db.order_items.length, []⟩ rfl
      (fun r _ => hinj _) (fun r hr => parse_pyStrDT r.ts (hwf.eventTs r hr))
      (fun r hr => by
        obtain ⟨c, hc, hcn⟩ := matchNodes_custBlock db.customers g0.nextId r.customer_id
          hwf.custIds (hwf.eventFKc r hr)
        refine ⟨c, ?_, ?_⟩
        · simp [matchNodes, List.filter_append, hc,
            mkBlock_filter_ne_label "Category" "Customer" _ (by decide),
            mkBlock_filter_ne_label "Product" "Customer" _ (by decide),
            mkBlock_filter_ne_label "Order" "Customer" _ (by decide)]
        · rw [hcn]
          rfl)
      (fun r hr => by
        obtain ⟨p, hp, hpn⟩ := matchNodes_prodBlock db.products
          (g0.nextId + db.customers.length + db.categories.length) r.product_id
          hwf.prodIds (hwf.eventFKp r hr)
        refine ⟨p, ?_, ?_⟩
        · simp [matchNodes, List.filter_append, hp,
            mkBlock_filter_ne_label "Customer" "Product" _ (by decide),
            mkBlock_filter_ne_label "Category" "Product" _ (by decide),
            mkBlock_filter_ne_label "Order" "Product" _ (by decide)]
        · rw [hpn]
          rfl)
    simpa only [eventOpsPy] using hx
  rw [h7]
  constructor
  · simp only [projNodesM, projRelsM]
  · rfl

/-- C5 (amended): a run that fails before the initial wipe leaves prior
graph content untouched (see the counterexample); every run that passes
the readiness gates and the connection and whose wipe statement succeeds
destroys all prior content first — every node and relationship in the
final graph carries a fresh internal id, whatever happens later in the
run — and a run on a well-formed source with no store errors completes
and leaves the graph exactly the projection of the relational rows read
during the run. -/
theorem full_wipe_and_projection (env : Env) (db : ShopDB) (g0 : Graph)
    (hpg : (wait_for_postgres env.pgProbe 30 2).result = .ok ())
    (hnj : (wait_for_neo4j env.njProbe 30 2).result = .ok ())
    (hconn : env.pgConnectOk = true) :
    (env.inj GOp.wipe = none →
      (∀ n ∈ (etl env db g0).graph.nodes, g0.nextId ≤ n.nid) ∧
      (∀ r ∈ (etl env db g0).graph.rels, g0.nextId ≤ r.src ∧ g0.nextId ≤ r.dst)) ∧
    ((∀ op, env.inj op = none) → (∀ s, env.injStmt s = none) → DBWellFormed db →
      (etl env db g0).err = none ∧
      (etl env db g0).graph =
        ⟨projNodes db g0.nextId, projRels db g0.nextId,
         g0.nextId + db.categories.length + db.products.length + db.customers.length +
           db.orders.length⟩) := by
  constructor
  · intro hw
    have hf := etlBody_fresh env.inj env.injStmt env.schemaFile db g0 hw
    obtain ⟨hg, _⟩ := etl_fields_of_ready env db g0 hpg hnj hconn
    rw [hg]
    exact ⟨hf.1, hf.2.1⟩
  · intro hinj hstmt hwf
    obtain ⟨hg, he⟩ := etl_master env db g0 hpg hnj hconn hinj hstmt hwf
    exact ⟨he, hg⟩

/-- Well-formedness of the one-row-per-table source `dbSmall`. -/
theorem dbSmall_wf : DBWellFormed dbSmall :=
  ⟨by decide, by decide, by decide, by decide, by decide, by decide, by decide,
   by decide, by decide, by decide, by decide⟩

/-- Witness for C5 at concrete inputs: starting from the sentinel graph
(ids below 1), the successful run's graph is exactly the projection of
`dbSmall`, every node id is fresh, and the run reports no error. -/
theorem full_wipe_and_projection_witness :
    (∀ n ∈ (etl envAllOk dbSmall sentinelGraph).graph.nodes,
      sentinelGraph.nextId ≤ n.nid) ∧
    (etl envAllOk dbSmall sentinelGraph).err = none ∧
    (etl envAllOk dbSmall sentinelGraph).graph =
      ⟨projNodes dbSmall sentinelGraph.nextId, projRels dbSmall sentinelGraph.nextId,
       sentinelGraph.nextId + dbSmall.categories.length + dbSmall.products.length +
         dbSmall.customers.length + dbSmall.orders.length⟩ := by
  have h := full_wipe_and_projection envAllOk dbSmall sentinelGraph rfl rfl rfl
  have h2 := h.2 (fun _ => rfl) (fun _ => rfl) dbSmall_wf
  exact ⟨(h.1 rfl).1, h2.1, h2.2⟩

/-- C2 (amended): an `etl()` run on a well-formed source processes the
entity stages in the order Categories, Products, Customers, Orders (then
order items and events, which create only relationships), each stage
fully completed before the next begins — the node list is the
concatenation of the four stage blocks in that order.  The
`migrate_to_neo4j` endpoint instead processes Customers FIRST, then
Categories, Products, Orders, Order Items, Events. -/
theorem stage_order_amended (env : Env) (inj : GOp → Option String) (db : ShopDB)
    (g0 g1 : Graph)
    (hpg : (wait_for_postgres env.pgProbe 30 2).result = .ok ())
    (hnj : (wait_for_neo4j env.njProbe 30 2).result = .ok ())
    (hconn : env.pgConnectOk = true)
    (hinj : ∀ op, env.inj op = none) (hstmt : ∀ s, env.injStmt s = none)
    (hinj2 : ∀ op, inj op = none) (hwf : DBWellFormed db) :
    (etl env db g0).graph.nodes =
      mkBlock "Category" g0.nextId (catItems db.categories) ++
      mkBlock "Product" (g0.nextId + db.categories.length) (prodItems db.products) ++
      mkBlock "Customer" (g0.nextId + db.categories.length + db.products.length)
        (custItems db.customers) ++
      mkBlock "Order" (g0.nextId + db.categories.length + db.products.length +
        db.customers.length) (ordItems db.orders) ∧
    (migrate_to_neo4j inj db g1).graph.nodes =
      mkBlock "Customer" g1.nextId (custItems db.customers) ++
      mkBlock "Category" (g1.nextId + db.customers.length) (catItems db.categories) ++
      mkBlock "Product" (g1.nextId + db.customers.length + db.categories.length)
        (prodItems db.products) ++
      mkBlock "Order" (g1.nextId + db.customers.length + db.categories.length +
        db.products.length) (ordItems db.orders) := by
  constructor
  · rw [(etl_master env db g0 hpg hnj hconn hinj hstmt hwf).1]
    rfl
  · rw [(migrate_master inj db g1 hinj2 hwf).1]
    rfl

/-- Witness for C2's amended theorem at `dbSmall`: the etl node labels in
stage order versus the endpoint's Customer-first order. -/
theorem stage_order_amended_witness :
    (etl envAllOk dbSmall ⟨[], [], 0⟩).graph.nodes.map (fun n => n.label) =
      ["Category", "Product", "Customer", "Order"] ∧
    (migrate_to_neo4j (fun _ => none) dbSmall ⟨[], [], 0⟩).graph.nodes.map
      (fun n => n.label) = ["Customer", "Category", "Product", "Order"] := by
  have h := stage_order_amended envAllOk (fun _ => none) dbSmall ⟨[], [], 0⟩ ⟨[], [], 0⟩
    rfl rfl rfl (fun _ => rfl) (fun _ => rfl) (fun _ => rfl) dbSmall_wf
  constructor
  · rw [h.1]
    decide
  · rw [h.2]
    decide

theorem prodRelsB_no_contains (nidFn : ProductRow → Nat) :
    ∀ (rows : List ProductRow) (b : Nat),
    (prodRelsB nidFn b rows).filter (fun r => decide (r.rtype = "CONTAINS")) = []
  | [], _ => rfl
  | r :: rest, b => by
    simp [prodRelsB, List.filter, prodRelsB_no_contains nidFn rest (b + 1)]

theorem ordRelsB_no_contains (nidFn : OrderRow → Nat) :
    ∀ (rows : List OrderRow) (b : Nat),
    (ordRelsB nidFn b rows).filter (fun r => decide (r.rtype = "CONTAINS")) = []
  | [], _ => rfl
  | r :: rest, b => by
    simp [ordRelsB, List.filter, ordRelsB_no_contains nidFn rest (b + 1)]

theorem eventRelsB_no_contains (cFn pFn : EventRow → Nat) :
    ∀ rows : List EventRow,
    (eventRelsB cFn pFn rows).filter (fun r => decide (r.rtype = "CONTAINS")) = []
  | [] => rfl
  | r :: rest => by
    simp [eventRelsB, List.filter, eventRelsB_no_contains cFn pFn rest]

theorem itemRelsB_all_contains (oFn pFn : OrderItemRow → Nat) :
    ∀ rows : List OrderItemRow,
    (itemRelsB oFn pFn rows).filter (fun r => decide (r.rtype = "CONTAINS")) =
      itemRelsB oFn pFn rows
  | [] => rfl
  | r :: rest => by
    simp [itemRelsB, List.filter, itemRelsB_all_contains oFn pFn rest]

theorem containsRels_projRels (db : ShopDB) (b : Nat) (nodes : List GNode) (ni : Nat) :
    containsRels ⟨nodes, projRels db b, ni⟩ =
      itemRelsB (ordNidFn db b) (prodNidFnI db b)
        (db.order_items.filter (itemResolvesB db)) := by
  simp [containsRels, projRels, List.filter_append,
    prodRelsB_no_contains, ordRelsB_no_contains, eventRelsB_no_contains,
    itemRelsB_all_contains]

theorem filter_length_lt {α : Type} (p : α → Bool) :
    ∀ (l : List α) (x : α), x ∈ l → p x = false → (l.filter p).length < l.length
  | a :: rest, x, hx, hpx => by
    rcases List.mem_cons.mp hx with h | h
    · subst h
      have hle := List.length_filter_le p rest
      simp [List.filter_cons, hpx]
      omega
    · have ih := filter_length_lt p rest x h hpx
      match hpa : p a with
      | true =>
        simp [List.filter_cons, hpa]
        omega
      | false =>
        simp [List.filter_cons, hpa]
        omega

/-- C1 (amended): given an `order_items` row whose `product_id` matches no
product (or whose `order_id` matches no order), the default `etl` run
does NOT abort: it completes with no error, and the `CONTAINS`
relationships of the final graph are exactly one per order-item row whose
BOTH foreign keys resolve — strictly fewer than the order-item rows read,
the dangling row contributing none, with no recorded signal beyond the
ordinary success log. -/
theorem dangling_order_item_amended (env : Env) (db : ShopDB) (g0 : Graph)
    (hpg : (wait_for_postgres env.pgProbe 30 2).result = .ok ())
    (hnj : (wait_for_neo4j env.njProbe 30 2).result = .ok ())
    (hconn : env.pgConnectOk = true)
    (hinj : ∀ op, env.inj op = none) (hstmt : ∀ s, env.injStmt s = none)
    (hwf : DBWellFormed db) (it : OrderItemRow) (hit : it ∈ db.order_items)
    (hdangling : ¬ (it.product_id ∈ db.products.map fun p => p.id) ∨
                 ¬ (it.order_id ∈ db.orders.map fun o => o.id)) :
    (etl env db g0).err = none ∧
    containsRels (etl env db g0).graph =
      itemRelsB (ordNidFn db g0.nextId) (prodNidFnI db g0.nextId)
        (db.order_items.filter (itemResolvesB db)) ∧
    (db.order_items.filter (itemResolvesB db)).length < db.order_items.length := by
  obtain ⟨hg, he⟩ := etl_master env db g0 hpg hnj hconn hinj hstmt hwf
  have hres : itemResolvesB db it = false := by
    rcases hdangling with h | h
    · simp [itemResolvesB, h]
    · simp [itemResolvesB, h]
  refine ⟨he, ?_, filter_length_lt (itemResolvesB db) db.order_items it hit hres⟩
  rw [hg]
  exact containsRels_projRels db g0.nextId _ _

/-- Witness for C1's amended theorem at `dbDangling` (product id 99
matches no product): the run completes and creates no `CONTAINS`
relationship at all. -/
theorem dangling_order_item_amended_witness :
    (etl envAllOk dbDangling ⟨[], [], 0⟩).err = none ∧
    containsRels (etl envAllOk dbDangling ⟨[], [], 0⟩).graph = [] ∧
    (dbDangling.order_items.filter (itemResolvesB dbDangling)).length <
      dbDangling.order_items.length := by
  have hwf : DBWellFormed dbDangling :=
    ⟨by decide, by decide, by decide, by decide, by decide, by decide, by decide,
     by decide, by decide, by decide, by decide⟩
  have h := dangling_order_item_amended envAllOk dbDangling ⟨[], [], 0⟩ rfl rfl rfl
    (fun _ => rfl) (fun _ => rfl) hwf ⟨1, 99, 2⟩ (by decide) (Or.inl (by decide))
  refine ⟨h.1, ?_, h.2.2⟩
  rw [h.2.1]
  decide

theorem eventRelsB_mem (cFn pFn : EventRow → Nat) (r : EventRow) :
    ∀ rows : List EventRow, r ∈ rows →
    (⟨cFn r, "INTERACTED", [("event_type", GVal.str r.event_type),
      ("timestamp", GVal.datetime r.ts)], pFn r⟩ : GRel) ∈ eventRelsB cFn pFn rows
  | x :: rest, hr => by
    rcases List.mem_cons.mp hr with h | h
    · subst h
      simp [eventRelsB]
    · simp [eventRelsB, eventRelsB_mem cFn pFn r rest h]

/-- C8: for every migrated row, field conversion is deterministic and
typed as the spec demands — in the graph a successful `etl` run leaves:
each customer row yields a `Customer` node whose `join_date` property is
the Cypher DATE value equal to the source calendar date (not a string);
each product row yields a `Product` node whose `price` is the float
value of the source price; each order row yields an `Order` node whose
`timestamp` is the Cypher DATETIME equal to the source instant; each
event row yields an `INTERACTED` relationship carrying the converted
datetime. -/
theorem field_conversion_typed (env : Env) (db : ShopDB) (g0 : Graph)
    (hpg : (wait_for_postgres env.pgProbe 30 2).result = .ok ())
    (hnj : (wait_for_neo4j env.njProbe 30 2).result = .ok ())
    (hconn : env.pgConnectOk = true)
    (hinj : ∀ op, env.inj op = none) (hstmt : ∀ s, env.injStmt s = none)
    (hwf : DBWellFormed db) :
    (∀ r ∈ db.customers, ∃ n ∈ (etl env db g0).graph.nodes,
      n.label = "Customer" ∧ n.idv = GVal.int r.id ∧
      n.props.lookup "join_date" = some (GVal.date r.join_date)) ∧
    (∀ r ∈ db.products, ∃ n ∈ (etl env db g0).graph.nodes,
      n.label = "Product" ∧ n.idv = GVal.int r.id ∧
      n.props.lookup "price" = some (GVal.float r.price)) ∧
    (∀ r ∈ db.orders, ∃ n ∈ (etl env db g0).graph.nodes,
      n.label = "Order" ∧ n.idv = GVal.int r.id ∧
      n.props.lookup "timestamp" = some (GVal.datetime r.ts)) ∧
    (∀ r ∈ db.events, ∃ rel ∈ (etl env db g0).graph.rels,
      rel.rtype = "INTERACTED" ∧
      rel.props.lookup "event_type" = some (GVal.str r.event_type) ∧
      rel.props.lookup "timestamp" = some (GVal.datetime r.ts)) := by
  obtain ⟨hg, _⟩ := etl_master env db g0 hpg hnj hconn hinj hstmt hwf
  rw [hg]
  refine ⟨?_, ?_, ?_, ?_⟩
  · intro r hr
    obtain ⟨nid, hn⟩ := mkBlock_mem_of_mem (fun c : CustomerRow => c.id)
      (fun c => [("name", GVal.str c.name), ("join_date", GVal.date c.join_date)])
      "Customer" r db.customers
      (g0.nextId + db.categories.length + db.products.length) hr
    have hn' : (⟨nid, "Customer", GVal.int r.id,
        [("name", GVal.str r.name), ("join_date", GVal.date r.join_date)]⟩ : GNode) ∈
        mkBlock "Customer" (g0.nextId + db.categories.length + db.products.length)
          (custItems db.customers) := by
      simpa only [custItems] using hn
    refine ⟨⟨nid, "Customer", GVal.int r.id,
      [("name", GVal.str r.name), ("join_date", GVal.date r.join_date)]⟩, ?_, rfl, rfl, rfl⟩
    simp only [projNodes, List.mem_append]
    exact Or.inl (Or.inr hn')
  · intro r hr
    obtain ⟨nid, hn⟩ := mkBlock_mem_of_mem (fun p : ProductRow => p.id)
      (fun p => [("name", GVal.str p.name), ("price", GVal.float p.price)])
      "Product" r db.products (g0.nextId + db.categories.length) hr
    have hn' : (⟨nid, "Product", GVal.int r.id,
        [("name", GVal.str r.name), ("price", GVal.float r.price)]⟩ : GNode) ∈
        mkBlock "Product" (g0.nextId + db.categories.length) (prodItems db.products) := by
      simpa only [prodItems] using hn
    refine ⟨⟨nid, "Product", GVal.int r.id,
      [("name", GVal.str r.name), ("price", GVal.float r.price)]⟩, ?_, rfl, rfl, rfl⟩
    simp only [projNodes, List.mem_append]
    exact Or.inl (Or.inl (Or.inr hn'))
  · intro r hr
    obtain ⟨nid, hn⟩ := mkBlock_mem_of_mem (fun o : OrderRow => o.id)
      (fun o => [("timestamp", GVal.datetime o.ts)]) "Order" r db.orders
      (g0.nextId + db.categories.length + db.products.length + db.customers.length) hr
    have hn' : (⟨nid, "Order", GVal.int r.id,
        [("timestamp", GVal.datetime r.ts)]⟩ : GNode) ∈
        mkBlock "Order" (g0.nextId + db.categories.length + db.products.length +
          db.customers.length) (ordItems db.orders) := by
      simpa only [ordItems] using hn
    refine ⟨⟨nid, "Order", GVal.int r.id, [("timestamp", GVal.datetime r.ts)]⟩,
      ?_, rfl, rfl, rfl⟩
    simp only [projNodes, List.mem_append]
    exact Or.inr hn'
  · intro r hr
    refine ⟨⟨custNidFnE db g0.nextId r, "INTERACTED",
      [("event_type", GVal.str r.event_type), ("timestamp", GVal.datetime r.ts)],
      prodNidFnE db g0.nextId r⟩, ?_, rfl, rfl, rfl⟩
    simp only [projRels, List.mem_append]
    exact Or.inr (eventRelsB_mem (custNidFnE db g0.nextId) (prodNidFnE db g0.nextId)
      r db.events hr)

/-- Witness for C8 at `dbSmall`: the one customer's `join_date` is the
DATE 2024-01-15 and the one order's `timestamp` is the DATETIME
2024-01-15T10:30:00, as the spec's example demands. -/
theorem field_conversion_typed_witness :
    (∃ n ∈ (etl envAllOk dbSmall ⟨[], [], 0⟩).graph.nodes,
      n.label = "Customer" ∧ n.idv = GVal.int 1 ∧
      n.props.lookup "join_date" = some (GVal.date ⟨2024, 1, 15⟩)) ∧
    (∃ n ∈ (etl envAllOk dbSmall ⟨[], [], 0⟩).graph.nodes,
      n.label = "Order" ∧ n.idv = GVal.int 1 ∧
      n.props.lookup "timestamp" = some (GVal.datetime ⟨⟨2024, 1, 15⟩, 10, 30, 0⟩)) := by
  have h := field_conversion_typed envAllOk dbSmall ⟨[], [], 0⟩ rfl rfl rfl
    (fun _ => rfl) (fun _ => rfl) dbSmall_wf
  exact ⟨h.1 ⟨1, "Alice", ⟨2024, 1, 15⟩⟩ (by decide),
         h.2.2.1 ⟨1, 1, ⟨⟨2024, 1, 15⟩, 10, 30, 0⟩⟩ (by decide)⟩

theorem finishSummary_mem_summary (db : ShopDB) (st : BodySt)
    (h : (finishSummary db st).err = none) :
    ∀ s ∈ summaryLines db, s ∈ (finishSummary db st).log := by
  match he : st.err with
  | some e =>
    rw [finishSummary_err, he] at h
    cases h
  | none =>
    intro s hs
    simp [finishSummary, he]
    exact Or.inr hs

theorem etl_log_of_ready (env : Env) (db : ShopDB) (g0 : Graph)
    (hpg : (wait_for_postgres env.pgProbe 30 2).result = .ok ())
    (hnj : (wait_for_neo4j env.njProbe 30 2).result = .ok ())
    (hconn : env.pgConnectOk = true)
    (hbody : (etlBody env.inj env.injStmt env.schemaFile db g0).err = none) :
    (etl env db g0).log =
      (etlBody env.inj env.injStmt env.schemaFile db g0).log ++
        ["Database connections closed."] := by
  unfold etl
  rw [hpg, hnj]
  simp [hconn, hbody]

/-- C3 (amended): a completing `etl` run reports the per-entity processed
counts only in its printed log (the summary bullet lines); the value the
caller receives is `None` from `etl()` and the fixed status/message dict
from the migrate endpoint — no Summary value with counts reaches the
caller. -/
theorem summary_counts_logged_not_returned (env : Env) (inj : GOp → Option String)
    (db : ShopDB) (g0 g1 : Graph)
    (hpg : (wait_for_postgres env.pgProbe 30 2).result = .ok ())
    (hnj : (wait_for_neo4j env.njProbe 30 2).result = .ok ())
    (hconn : env.pgConnectOk = true)
    (hinj : ∀ op, env.inj op = none) (hstmt : ∀ s, env.injStmt s = none)
    (hinj2 : ∀ op, inj op = none) (hwf : DBWellFormed db) :
    (∀ s ∈ summaryLines db, s ∈ (etl env db g0).log) ∧
    (migrate_to_neo4j inj db g1).retVal =
      .ok [("status", "success"), ("message", "Data migrated to Neo4j")] := by
  have hbody := (etlBody_master env.inj env.injStmt env.schemaFile db g0 hinj hstmt hwf).2
  constructor
  · intro s hs
    rw [etl_log_of_ready env db g0 hpg hnj hconn hbody]
    apply List.mem_append_left
    have hmem : ∀ t ∈ summaryLines db,
        t ∈ (etlBody env.inj env.injStmt env.schemaFile db g0).log := by
      have hb := hbody
      unfold etlBody at hb ⊢
      exact finishSummary_mem_summary db _ hb
    exact hmem s hs
  · exact (migrate_master inj db g1 hinj2 hwf).2

/-- Witness for C3's amended theorem at `dbSmall`: the category count
bullet is in the log and the endpoint returns the fixed dict. -/
theorem summary_counts_logged_not_returned_witness :
    "  • 1 categories" ∈ (etl envAllOk dbSmall ⟨[], [], 0⟩).log ∧
    (migrate_to_neo4j (fun _ => none) dbSmall ⟨[], [], 0⟩).retVal =
      .ok [("status", "success"), ("message", "Data migrated to Neo4j")] := by
  have h := summary_counts_logged_not_returned envAllOk (fun _ => none) dbSmall
    ⟨[], [], 0⟩ ⟨[], [], 0⟩ rfl rfl rfl (fun _ => rfl) (fun _ => rfl) (fun _ => rfl)
    dbSmall_wf
  exact ⟨h.1 _ (by decide), h.2⟩
